import Mathlib

/-!
Verification of the YaSwag annotation lexer (internal/parser, Go) and, where
the repository ships only the specification of the document assembler, a
spec-modelled assembler.  Strings are embedded as `List Char`; every Go regex
used by the lexer is embedded as a deterministic matcher that follows the
leftmost-first (Perl) matching discipline of Go's regexp package on the
concrete patterns of the source (each pattern is simple enough that the
backtracking search collapses to the deterministic code below).
-/

namespace YaSwag

/-! ## Character classes (RE2 ASCII classes and Go unicode.IsSpace) -/

/-- RE2 `\s` = `[\t\n\f\r ]`. -/
def reSpace (c : Char) : Bool :=
  c == ' ' || c == '\t' || c == '\n' || c == '\x0c' || c == '\r'

/-- RE2 `\S`. -/
def reNonSpace (c : Char) : Bool := !(reSpace c)

/-- RE2 `\d` = `[0-9]`. -/
def reDigit (c : Char) : Bool := '0' ≤ c && c ≤ '9'

/-- `[\d.]` as used by the version patterns. -/
def reDigitDot (c : Char) : Bool := reDigit c || c == '.'

/-- RE2 `\w` = `[0-9A-Za-z_]`. -/
def reWord (c : Char) : Bool :=
  ('a' ≤ c && c ≤ 'z') || ('A' ≤ c && c ≤ 'Z') || reDigit c || c == '_'

/-- `[\w-]` (parameter names). -/
def reWordHyphen (c : Char) : Bool := reWord c || c == '-'

/-- `[\w:]` (scope names). -/
def reWordColon (c : Char) : Bool := reWord c || c == ':'

/-- `[^"]`. -/
def notQuote (c : Char) : Bool := !(c == '"')

/-- `.` (any char except newline). -/
def notNl (c : Char) : Bool := !(c == '\n')

/-- Go `unicode.IsSpace` (used by `strings.TrimSpace` and `strings.Fields`). -/
def goIsSpace (c : Char) : Bool :=
  c == ' ' || c == '\t' || c == '\n' || c == '\x0b' || c == '\x0c' || c == '\r' ||
  c == '\x85' || c == '\xa0' || c.val == 0x1680 ||
  (0x2000 ≤ c.val && c.val ≤ 0x200a) || c.val == 0x2028 || c.val == 0x2029 ||
  c.val == 0x202f || c.val == 0x205f || c.val == 0x3000

/-- Characters trimmed by `strings.Trim(s, "\x22'")` in the lexer. -/
def isQuoteApos (c : Char) : Bool := c == '"' || c == '\''

/-! ## Basic string helpers over `List Char` -/

/-- `strings.TrimSpace`. -/
def goTrimSpace (l : List Char) : List Char :=
  ((l.dropWhile goIsSpace).reverse.dropWhile goIsSpace).reverse

/-- `strings.Trim(s, "\x22'")`. -/
def trimQuotes (l : List Char) : List Char :=
  ((l.dropWhile isQuoteApos).reverse.dropWhile isQuoteApos).reverse

/-- Drop a literal from the front of the input; `none` when it is not there. -/
def dropLit : List Char → List Char → Option (List Char)
  | [], l => some l
  | _ :: _, [] => none
  | p :: ps, c :: cs => if p = c then dropLit ps cs else none

/-- `strings.Contains line sub` (substring test). -/
def containsSub (sub : List Char) : List Char → Bool
  | [] => decide (sub = [])
  | c :: t => (dropLit sub (c :: t)).isSome || containsSub sub t

/-- One-or-more run of characters satisfying `p` (regex `p+`); returns the
captured run and the rest. -/
def plusP (p : Char → Bool) : List Char → Option (List Char × List Char)
  | [] => none
  | c :: t => if p c then some (c :: t.takeWhile p, t.dropWhile p) else none

/-- Zero-or-more run (regex `p*`). -/
def starP (p : Char → Bool) (l : List Char) : List Char × List Char :=
  (l.takeWhile p, l.dropWhile p)

/-- First literal of the alternation that is a prefix of the input.  For every
alternation of the source's patterns at most one branch can be a prefix of a
given input, so first-is-prefix equals Perl's first-that-matches. -/
def litAlt : List (List Char) → List Char → Option (List Char × List Char)
  | [], _ => none
  | a :: rest, l =>
    match dropLit a l with
    | some r => some (a, r)
    | none => litAlt rest l

/-- `"([^"]*)"` : a quoted group; returns the body and the rest. -/
def quoted : List Char → Option (List Char × List Char)
  | '"' :: t =>
    match t.dropWhile notQuote with
    | '"' :: rest => some (t.takeWhile notQuote, rest)
    | _ => none
  | _ => none

/-- `(?:\s+"([^"]*)")?` : optional whitespace-preceded quoted group; an
unmatched optional group captures the empty string and leaves the input
where it was. -/
def optWsQuoted (l : List Char) : List Char × List Char :=
  match plusP reSpace l with
  | none => ([], l)
  | some (_, r) =>
    match quoted r with
    | none => ([], l)
    | some (d, r2) => (d, r2)

/-- `(?:\s+(\S+))?`. -/
def optWsToken (l : List Char) : List Char × List Char :=
  match plusP reSpace l with
  | none => ([], l)
  | some (_, r) =>
    match plusP reNonSpace r with
    | none => ([], l)
    | some (t, r2) => (t, r2)

/-- `(?:\s+<open>([^<close>]+)<close>)?` (contact's `<email>` / `(url)`). -/
def optWsDelim (op cl : Char) (l : List Char) : List Char × List Char :=
  match plusP reSpace l with
  | none => ([], l)
  | some (_, r) =>
    match r with
    | c :: t =>
      if c = op then
        match plusP (fun x => !(x == cl)) t with
        | none => ([], l)
        | some (b, rest) =>
          match rest with
          | c2 :: rest2 => if c2 = cl then (b, rest2) else ([], l)
          | [] => ([], l)
      else ([], l)
    | [] => ([], l)

/-! ## Keyword and key literals -/

def kwApi : List Char := ['!', 'a', 'p', 'i']
def kwInfo : List Char := ['!', 'i', 'n', 'f', 'o']
def kwContact : List Char := ['!', 'c', 'o', 'n', 't', 'a', 'c', 't']
def kwLicense : List Char := ['!', 'l', 'i', 'c', 'e', 'n', 's', 'e']
def kwServer : List Char := ['!', 's', 'e', 'r', 'v', 'e', 'r']
def kwTag : List Char := ['!', 't', 'a', 'g']
def kwTos : List Char := ['!', 't', 'o', 's']
def kwSecurity : List Char := ['!', 's', 'e', 'c', 'u', 'r', 'i', 't', 'y']
def kwScope : List Char := ['!', 's', 'c', 'o', 'p', 'e']
def kwExternalDocs : List Char :=
  ['!', 'e', 'x', 't', 'e', 'r', 'n', 'a', 'l', 'D', 'o', 'c', 's']
def kwLink : List Char := ['!', 'l', 'i', 'n', 'k']
def kwWebhook : List Char := ['!', 'w', 'e', 'b', 'h', 'o', 'o', 'k']
def kwWebhookBody : List Char :=
  ['!', 'w', 'e', 'b', 'h', 'o', 'o', 'k', '-', 'b', 'o', 'd', 'y']
def kwWebhookResp : List Char :=
  ['!', 'w', 'e', 'b', 'h', 'o', 'o', 'k', '-', 'r', 'e', 's', 'p', 'o', 'n', 's', 'e']
def kwBody : List Char := ['!', 'b', 'o', 'd', 'y']
def kwSecure : List Char := ['!', 's', 'e', 'c', 'u', 'r', 'e']
def kwModel : List Char := ['!', 'm', 'o', 'd', 'e', 'l']
def kwField : List Char := ['!', 'f', 'i', 'e', 'l', 'd']

/-- Security scheme types of `securityPattern`, in alternation order. -/
def secTypes : List (List Char) :=
  [['a', 'p', 'i', 'K', 'e', 'y'], ['o', 'a', 'u', 't', 'h', '2'],
   ['h', 't', 't', 'p'],
   ['o', 'p', 'e', 'n', 'I', 'd', 'C', 'o', 'n', 'n', 'e', 'c', 't']]

/-- HTTP methods of `routePattern`, in alternation order. -/
def routeMethods : List (List Char) :=
  [['G', 'E', 'T'], ['P', 'O', 'S', 'T'], ['P', 'U', 'T'],
   ['D', 'E', 'L', 'E', 'T', 'E'], ['P', 'A', 'T', 'C', 'H'],
   ['O', 'P', 'T', 'I', 'O', 'N', 'S'], ['H', 'E', 'A', 'D']]

/-- Webhook methods, in alternation order. -/
def webhookMethods : List (List Char) :=
  [['g', 'e', 't'], ['p', 'o', 's', 't'], ['p', 'u', 't'],
   ['d', 'e', 'l', 'e', 't', 'e'], ['p', 'a', 't', 'c', 'h']]

/-- Parameter locations of `paramPattern`, in alternation order. -/
def paramLocs : List (List Char) :=
  [['q', 'u', 'e', 'r', 'y'], ['p', 'a', 't', 'h'],
   ['h', 'e', 'a', 'd', 'e', 'r'], ['c', 'o', 'o', 'k', 'i', 'e']]

/-- Response kinds of `responsePattern`, in alternation order. -/
def respKinds : List (List Char) := [['o', 'k'], ['e', 'r', 'r', 'o', 'r']]

def litOk : List Char := ['o', 'k']
def litError : List Char := ['e', 'r', 'r', 'o', 'r']
def litPath : List Char := ['p', 'a', 't', 'h']
def litHeader : List Char := ['h', 'e', 'a', 'd', 'e', 'r']

/-- The scanned key of `default=(\S+)`. -/
def kwDefaultEq : List Char := ['d', 'e', 'f', 'a', 'u', 'l', 't', '=']
/-- The scanned key of `example=("[^"]*"|\S+)`. -/
def kwExampleEq : List Char := ['e', 'x', 'a', 'm', 'p', 'l', 'e', '=']
/-- The literal substring `" required"` tested with `strings.Contains`. -/
def sRequired : List Char := [' ', 'r', 'e', 'q', 'u', 'i', 'r', 'e', 'd']

-- Attribute keys of the annotation argument maps.
def kVersion : List Char := ['v', 'e', 'r', 's', 'i', 'o', 'n']
def kTitle : List Char := ['t', 'i', 't', 'l', 'e']
def kDescription : List Char :=
  ['d', 'e', 's', 'c', 'r', 'i', 'p', 't', 'i', 'o', 'n']
def kName : List Char := ['n', 'a', 'm', 'e']
def kEmail : List Char := ['e', 'm', 'a', 'i', 'l']
def kUrl : List Char := ['u', 'r', 'l']
def kLabel : List Char := ['l', 'a', 'b', 'e', 'l']
def kMethod : List Char := ['m', 'e', 't', 'h', 'o', 'd']
def kPath : List Char := ['p', 'a', 't', 'h']
def kOperationId : List Char :=
  ['o', 'p', 'e', 'r', 'a', 't', 'i', 'o', 'n', 'I', 'd']
def kSummary : List Char := ['s', 'u', 'm', 'm', 'a', 'r', 'y']
def kIn : List Char := ['i', 'n']
def kType : List Char := ['t', 'y', 'p', 'e']
def kRequired : List Char := ['r', 'e', 'q', 'u', 'i', 'r', 'e', 'd']
def kDefault : List Char := ['d', 'e', 'f', 'a', 'u', 'l', 't']
def kSchema : List Char := ['s', 'c', 'h', 'e', 'm', 'a']
def kStatus : List Char := ['s', 't', 'a', 't', 'u', 's']
def kNames : List Char := ['n', 'a', 'm', 'e', 's']
def kSecurityKey : List Char := ['s', 'e', 'c', 'u', 'r', 'i', 't', 'y']
def kLocation : List Char := ['l', 'o', 'c', 'a', 't', 'i', 'o', 'n']
def kExample : List Char := ['e', 'x', 'a', 'm', 'p', 'l', 'e']
/-- `argTrue` of the source. -/
def vTrue : List Char := ['t', 'r', 'u', 'e']
/-- Default status `"200"` of `!ok`. -/
def v200 : List Char := ['2', '0', '0']
/-- Default status `"500"` of `!error`. -/
def v500 : List Char := ['5', '0', '0']

/-! ## Pattern matchers (one per compiled regex of `NewAnnotationParser`) -/

/-- `^!api\s+v?([\d.]+)` — capture: version. -/
def matchApi (l : List Char) : Option (List Char) :=
  match dropLit kwApi l with
  | none => none
  | some r =>
    match plusP reSpace r with
    | none => none
    | some (_, r) =>
      match r with
      | 'v' :: r2 => (plusP reDigitDot r2).map (fun x => x.1)
      | _ => (plusP reDigitDot r).map (fun x => x.1)

/-- `^!info\s+"([^"]+)"\s+v?([\d.]+)(?:\s+"([^"]*)")?` — title, version, description. -/
def matchInfo (l : List Char) : Option (List Char × List Char × List Char) :=
  match dropLit kwInfo l with
  | none => none
  | some r =>
    match plusP reSpace r with
    | none => none
    | some (_, r) =>
      match quoted r with
      | none => none
      | some (ti, r) =>
        if ti = [] then none
        else
          match plusP reSpace r with
          | none => none
          | some (_, r) =>
            match (match r with
                   | 'v' :: r2 => (plusP reDigitDot r2)
                   | _ => plusP reDigitDot r) with
            | none => none
            | some (ver, r) => some (ti, ver, (optWsQuoted r).1)

/-- `^!contact\s+"([^"]*)"(?:\s+<([^>]+)>)?(?:\s+\(([^)]+)\))?` — name, email, url. -/
def matchContact (l : List Char) : Option (List Char × List Char × List Char) :=
  match dropLit kwContact l with
  | none => none
  | some r =>
    match plusP reSpace r with
    | none => none
    | some (_, r) =>
      match quoted r with
      | none => none
      | some (nm, r) =>
        let (em, r) := optWsDelim '<' '>' r
        let (u, _) := optWsDelim '(' ')' r
        some (nm, em, u)

/-- `^!<kw>\s+(\S+)(?:\s+(\S+))?` (the license pattern). -/
def matchTwoTokens (kw : List Char) (l : List Char) :
    Option (List Char × List Char) :=
  match dropLit kw l with
  | none => none
  | some r =>
    match plusP reSpace r with
    | none => none
    | some (_, r) =>
      match plusP reNonSpace r with
      | none => none
      | some (t1, r) => some (t1, (optWsToken r).1)

/-- `^!<kw>\s+(\S+)(?:\s+"([^"]*)")?` (server / tag / externalDocs / body /
webhook-body patterns). -/
def matchTokenQuoted (kw : List Char) (l : List Char) :
    Option (List Char × List Char) :=
  match dropLit kw l with
  | none => none
  | some r =>
    match plusP reSpace r with
    | none => none
    | some (_, r) =>
      match plusP reNonSpace r with
      | none => none
      | some (t1, r) => some (t1, (optWsQuoted r).1)

/-- `^!tos\s+(\S+)` — url. -/
def matchTos (l : List Char) : Option (List Char) :=
  match dropLit kwTos l with
  | none => none
  | some r =>
    match plusP reSpace r with
    | none => none
    | some (_, r) => (plusP reNonSpace r).map (fun x => x.1)

/-- `^!security\s+(\w+):(apiKey|oauth2|http|openIdConnect):?(\w*)(?:\s+"([^"]*)")?(?:\s+(\S+))?`
— name, type, location, description, url. -/
def matchSecurity (l : List Char) :
    Option (List Char × List Char × List Char × List Char × List Char) :=
  match dropLit kwSecurity l with
  | none => none
  | some r =>
    match plusP reSpace r with
    | none => none
    | some (_, r) =>
      match plusP reWord r with
      | none => none
      | some (nm, r) =>
        match dropLit [':'] r with
        | none => none
        | some r =>
          match litAlt secTypes r with
          | none => none
          | some (ty, r) =>
            let r := match r with
                     | ':' :: r2 => r2
                     | _ => r
            let (loc, r) := starP reWord r
            let (d, r) := optWsQuoted r
            let (u, _) := optWsToken r
            some (nm, ty, loc, d, u)

/-- `^!scope\s+(\w+)\s+([\w:]+)(?:\s+"([^"]*)")?` — security, name, description. -/
def matchScope (l : List Char) : Option (List Char × List Char × List Char) :=
  match dropLit kwScope l with
  | none => none
  | some r =>
    match plusP reSpace r with
    | none => none
    | some (_, r) =>
      match plusP reWord r with
      | none => none
      | some (sec, r) =>
        match plusP reSpace r with
        | none => none
        | some (_, r) =>
          match plusP reWordColon r with
          | none => none
          | some (nm, r) => some (sec, nm, (optWsQuoted r).1)

/-- `^!link\s+"([^"]+)"\s+(\S+)` — label, url. -/
def matchLink (l : List Char) : Option (List Char × List Char) :=
  match dropLit kwLink l with
  | none => none
  | some r =>
    match plusP reSpace r with
    | none => none
    | some (_, r) =>
      match quoted r with
      | none => none
      | some (lb, r) =>
        if lb = [] then none
        else
          match plusP reSpace r with
          | none => none
          | some (_, r) => (plusP reNonSpace r).map (fun x => (lb, x.1))

/-- `^!webhook\s+(\w+):(get|post|put|delete|patch)\s*(?:"([^"]*)")?`
— name, method, description. -/
def matchWebhook (l : List Char) :
    Option (List Char × List Char × List Char) :=
  match dropLit kwWebhook l with
  | none => none
  | some r =>
    match plusP reSpace r with
    | none => none
    | some (_, r) =>
      match plusP reWord r with
      | none => none
      | some (nm, r) =>
        match dropLit [':'] r with
        | none => none
        | some r =>
          match litAlt webhookMethods r with
          | none => none
          | some (m, r) =>
            let (_, r) := starP reSpace r
            let d := match quoted r with
                     | some (d, _) => d
                     | none => []
            some (nm, m, d)

/-- `^!webhook-response\s+(\d+)\s+(\S+)(?:\s+"([^"]*)")?` — status, schema,
description. -/
def matchWebhookResp (l : List Char) :
    Option (List Char × List Char × List Char) :=
  match dropLit kwWebhookResp l with
  | none => none
  | some r =>
    match plusP reSpace r with
    | none => none
    | some (_, r) =>
      match plusP reDigit r with
      | none => none
      | some (st, r) =>
        match plusP reSpace r with
        | none => none
        | some (_, r) =>
          match plusP reNonSpace r with
          | none => none
          | some (sch, r) => some (st, sch, (optWsQuoted r).1)

/-- `^!(GET|POST|PUT|DELETE|PATCH|OPTIONS|HEAD)\s+(\S+)\s+->\s+(\S+)(?:\s+"([^"]*)")?`
— method, path, operationId, summary. -/
def matchRoute (l : List Char) :
    Option (List Char × List Char × List Char × List Char) :=
  match dropLit ['!'] l with
  | none => none
  | some r =>
    match litAlt routeMethods r with
    | none => none
    | some (m, r) =>
      match plusP reSpace r with
      | none => none
      | some (_, r) =>
        match plusP reNonSpace r with
        | none => none
        | some (pa, r) =>
          match plusP reSpace r with
          | none => none
          | some (_, r) =>
            match dropLit ['-', '>'] r with
            | none => none
            | some r =>
              match plusP reSpace r with
              | none => none
              | some (_, r) =>
                match plusP reNonSpace r with
                | none => none
                | some (op, r) => some (m, pa, op, (optWsQuoted r).1)

/-- The part of the parameter pattern after `^!(query|path|header|cookie)\s+`:
`([\w-]+):(\w+)\??\s*(?:"([^"]*)")?`. -/
def paramTail (loc r : List Char) :
    Option (List Char × List Char × List Char × List Char) :=
  match plusP reWordHyphen r with
  | none => none
  | some (nm, r) =>
    match dropLit [':'] r with
    | none => none
    | some r =>
      match plusP reWord r with
      | none => none
      | some (ty, r) =>
        let r := match r with
                 | '?' :: r2 => r2
                 | _ => r
        let (_, r) := starP reSpace r
        let d := match quoted r with
                 | some (d, _) => d
                 | none => []
        some (loc, nm, ty, d)

/-- `^!(query|path|header|cookie)\s+([\w-]+):(\w+)\??\s*(?:"([^"]*)")?`
— location, name, type, description. -/
def matchParam (l : List Char) :
    Option (List Char × List Char × List Char × List Char) :=
  match dropLit ['!'] l with
  | none => none
  | some r =>
    match litAlt paramLocs r with
    | none => none
    | some (loc, r) =>
      match plusP reSpace r with
      | none => none
      | some (_, r) => paramTail loc r

/-- `^!field\s+(\w+):(\w+)\??\s*(?:"([^"]*)")?` — name, type, description. -/
def matchField (l : List Char) :
    Option (List Char × List Char × List Char) :=
  match dropLit kwField l with
  | none => none
  | some r =>
    match plusP reSpace r with
    | none => none
    | some (_, r) =>
      match plusP reWord r with
      | none => none
      | some (nm, r) =>
        match dropLit [':'] r with
        | none => none
        | some r =>
          match plusP reWord r with
          | none => none
          | some (ty, r) =>
            let r := match r with
                     | '?' :: r2 => r2
                     | _ => r
            let (_, r) := starP reSpace r
            let d := match quoted r with
                     | some (d, _) => d
                     | none => []
            some (nm, ty, d)

/-- The optional `(?:(\d+)\s+)?` of the response pattern followed by the
requirement that a `(\S+)` can still match (otherwise the backtracking search
gives up the optional group).  Returns the captured status (possibly empty)
and the position where `(\S+)` starts. -/
def optStatus (r : List Char) : List Char × List Char :=
  match plusP reDigit r with
  | none => ([], r)
  | some (d, r2) =>
    match plusP reSpace r2 with
    | none => ([], r)
    | some (_, r3) => if r3.isEmpty then ([], r) else (d, r3)

/-- The part of the response pattern after `^!(ok|error)\s+`:
`(?:(\d+)\s+)?(\S+)(?:\s+"([^"]*)")?`. -/
def respTail (k r : List Char) :
    Option (List Char × List Char × List Char × List Char) :=
  let (st, r2) := optStatus r
  match plusP reNonSpace r2 with
  | none => none
  | some (sch, r3) => some (k, st, sch, (optWsQuoted r3).1)

/-- `^!(ok|error)\s+(?:(\d+)\s+)?(\S+)(?:\s+"([^"]*)")?` — kind, status,
schema, description. -/
def matchResponse (l : List Char) :
    Option (List Char × List Char × List Char × List Char) :=
  match dropLit ['!'] l with
  | none => none
  | some r =>
    match litAlt respKinds r with
    | none => none
    | some (k, r) =>
      match plusP reSpace r with
      | none => none
      | some (_, r) => respTail k r

/-- `(.+)` at the current position: any run of non-newline characters,
greedy, at least one. -/
def dotPlus : List Char → Option (List Char)
  | [] => none
  | c :: t => if c = '\n' then none else some (c :: t.takeWhile notNl)

/-- Backtracking tail of `^!secure\s+(.+)`: at least one whitespace character
has been consumed; the `\s+` loop greedily consumes more and backtracks until
`(.+)` succeeds. -/
def secureAux : List Char → Option (List Char)
  | [] => none
  | c :: t =>
    if reSpace c then
      match secureAux t with
      | some g => some g
      | none => dotPlus (c :: t)
    else dotPlus (c :: t)

/-- `^!secure\s+(.+)` — the raw names text. -/
def matchSecure (l : List Char) : Option (List Char) :=
  match dropLit kwSecure l with
  | none => none
  | some (c :: t) => if reSpace c then secureAux t else none
  | some [] => none

/-- `^!model(?:\s+"([^"]*)")?` — description. -/
def matchModel (l : List Char) : Option (List Char) :=
  match dropLit kwModel l with
  | none => none
  | some r => some (optWsQuoted r).1

/-- `^!webhook-body\s+(\S+)(?:\s+"([^"]*)")?`. -/
def matchWebhookBody (l : List Char) : Option (List Char × List Char) :=
  matchTokenQuoted kwWebhookBody l

/-! ## Scanners used inside `parseParamPattern` / `parseFieldPattern` -/

/-- Leftmost match of `<key>(\S+)` anywhere in the line (the
`default=(\S+)` scan): at each position, if the key matches and a non-space
run follows, capture it; otherwise advance one character. -/
def scanKeyToken (key : List Char) : List Char → Option (List Char)
  | [] => none
  | c :: t =>
    match dropLit key (c :: t) with
    | some r =>
      (match plusP reNonSpace r with
       | some (v, _) => some v
       | none => scanKeyToken key t)
    | none => scanKeyToken key t

/-- `"[^"]*"` capturing the quotes themselves (first branch of the
`example=("[^"]*"|\S+)` alternation). -/
def quotedRaw : List Char → Option (List Char)
  | '"' :: t =>
    match t.dropWhile notQuote with
    | '"' :: _ => some ('"' :: (t.takeWhile notQuote ++ ['"']))
    | _ => none
  | _ => none

/-- Leftmost match of `example=("[^"]*"|\S+)` anywhere in the line. -/
def scanExample : List Char → Option (List Char)
  | [] => none
  | c :: t =>
    match dropLit kwExampleEq (c :: t) with
    | some r =>
      (match quotedRaw r with
       | some v => some v
       | none =>
         match plusP reNonSpace r with
         | some (v, _) => some v
         | none => scanExample t)
    | none => scanExample t

/-! ## `extractTags`, `strings.Fields`, `strings.Split` -/

/-- Fuel-based scanner for `#(\w+)` (the fuel makes the recursion
structural, hence kernel-reducible; every recursive call strictly shortens
the input, so fuel = input length never runs out). -/
def tagsFuel : Nat → List Char → List (List Char)
  | 0, _ => []
  | _ + 1, [] => []
  | f + 1, '#' :: d :: t2 =>
    if reWord d then
      (d :: t2.takeWhile reWord) :: tagsFuel f (t2.dropWhile reWord)
    else tagsFuel f (d :: t2)
  | _ + 1, ['#'] => []
  | f + 1, _ :: t => tagsFuel f t

/-- `extractTags`: all matches of `#(\w+)`, leftmost, non-overlapping. -/
def extractTags (l : List Char) : List (List Char) := tagsFuel l.length l

/-- Fuel-based splitter around runs of `unicode.IsSpace` (same fuel
discipline as `tagsFuel`). -/
def fieldsFuel : Nat → List Char → List (List Char)
  | 0, _ => []
  | _ + 1, [] => []
  | f + 1, c :: t =>
    if goIsSpace c then fieldsFuel f t
    else
      (c :: t.takeWhile (fun x => !(goIsSpace x))) ::
        fieldsFuel f (t.dropWhile (fun x => !(goIsSpace x)))

/-- `strings.Fields` (split around runs of `unicode.IsSpace`). -/
def goFields (l : List Char) : List (List Char) := fieldsFuel l.length l

/-- `strings.Join(names, ",")`. -/
def joinComma : List (List Char) → List Char
  | [] => []
  | [x] => x
  | x :: y :: rest => x ++ ',' :: joinComma (y :: rest)

/-- `strings.Split(text, "\n")`. -/
def splitOnNl : List Char → List (List Char)
  | [] => [[]]
  | c :: t =>
    match splitOnNl t with
    | [] => [[c]]
    | h :: r => if c = '\n' then [] :: h :: r else (c :: h) :: r

/-! ## Annotation data model -/

/-- `AnnotationType` of the source. -/
inductive AnnotationType where
  | api | info | contact | license | server | tag | tos | security | scope
  | externalDocs | link
  | webhook | webhookBody | webhookResponse
  | route | query | path | header | body | ok | error | secure
  | model | field
deriving DecidableEq, Repr

/-- `Annotation` of the source (`Annot` for short): Type, RawLine, Args,
Tags.  The Go `map[string]string` is embedded as an association list — every
parse function writes each key at most once, so lookup order is immaterial. -/
structure Annot where
  type : AnnotationType
  rawLine : List Char
  args : List (List Char × List Char)
  tags : List (List Char)
deriving DecidableEq, Repr

/-- Go map read `a.Args[k]` (missing key yields the empty string). -/
def argLookup (k : List Char) : List (List Char × List Char) → List Char
  | [] => []
  | (k2, v) :: rest => if k = k2 then v else argLookup k rest

def Annot.arg (a : Annot) (k : List Char) : List Char := argLookup k a.args

/-- Whether a key is present in the argument map. -/
def hasKey (k : List Char) : List (List Char × List Char) → Bool
  | [] => false
  | (k2, _) :: rest => k = k2 || hasKey k rest

/-! ## The parse functions of `AnnotationParser` -/

/-- `strings.ToUpper` on the ASCII method names matched by the route
pattern. -/
def toUpperChar (c : Char) : Char :=
  if 'a' ≤ c ∧ c ≤ 'z' then Char.ofNat (c.toNat - 32) else c

/-- `parseSimplePatterns`: the eleven table entries in order.  For every
table entry the number of keys equals the number of capture groups of its
regex, so the `i+1 < len(match)` guard of the source always holds and each
key is written (an unmatched optional group is the empty string). -/
def parseSimplePatterns (line : List Char) : Option Annot :=
  match matchApi line with
  | some v =>
    some { type := .api, rawLine := line, args := [(kVersion, v)], tags := [] }
  | none =>
  match matchInfo line with
  | some (ti, ver, d) =>
    some { type := .info, rawLine := line,
           args := [(kTitle, ti), (kVersion, ver), (kDescription, d)],
           tags := [] }
  | none =>
  match matchContact line with
  | some (nm, em, u) =>
    some { type := .contact, rawLine := line,
           args := [(kName, nm), (kEmail, em), (kUrl, u)], tags := [] }
  | none =>
  match matchTwoTokens kwLicense line with
  | some (nm, u) =>
    some { type := .license, rawLine := line,
           args := [(kName, nm), (kUrl, u)], tags := [] }
  | none =>
  match matchTokenQuoted kwServer line with
  | some (u, d) =>
    some { type := .server, rawLine := line,
           args := [(kUrl, u), (kDescription, d)], tags := [] }
  | none =>
  match matchTokenQuoted kwTag line with
  | some (nm, d) =>
    some { type := .tag, rawLine := line,
           args := [(kName, nm), (kDescription, d)], tags := [] }
  | none =>
  match matchTos line with
  | some u =>
    some { type := .tos, rawLine := line, args := [(kUrl, u)], tags := [] }
  | none =>
  match matchSecurity line with
  | some (nm, ty, loc, d, u) =>
    some { type := .security, rawLine := line,
           args := [(kName, nm), (kType, ty), (kLocation, loc),
                    (kDescription, d), (kUrl, u)],
           tags := [] }
  | none =>
  match matchScope line with
  | some (sec, nm, d) =>
    some { type := .scope, rawLine := line,
           args := [(kSecurityKey, sec), (kName, nm), (kDescription, d)],
           tags := [] }
  | none =>
  match matchTokenQuoted kwExternalDocs line with
  | some (u, d) =>
    some { type := .externalDocs, rawLine := line,
           args := [(kUrl, u), (kDescription, d)], tags := [] }
  | none =>
  match matchLink line with
  | some (lb, u) =>
    some { type := .link, rawLine := line,
           args := [(kLabel, lb), (kUrl, u)], tags := [] }
  | none => none

/-- `parseRoutePattern`. -/
def parseRoutePattern (line : List Char) : Option Annot :=
  match matchRoute line with
  | none => none
  | some (m, pa, op, s) =>
    some { type := .route, rawLine := line,
           args := [(kMethod, m.map toUpperChar), (kPath, pa),
                    (kOperationId, op), (kSummary, s)],
           tags := extractTags line }

/-- `parseParamPattern`. -/
def parseParamPattern (line : List Char) : Option Annot :=
  match matchParam line with
  | none => none
  | some (loc, nm, ty, d) =>
    let args := [(kIn, loc), (kName, nm), (kType, ty), (kDescription, d)]
    let args := args ++
      (if containsSub sRequired line then [(kRequired, vTrue)] else [])
    let args := args ++
      (match scanKeyToken kwDefaultEq line with
       | some v => [(kDefault, trimQuotes v)]
       | none => [])
    let ty2 := if loc = litPath then AnnotationType.path
               else if loc = litHeader then AnnotationType.header
               else AnnotationType.query
    some { type := ty2, rawLine := line, args := args, tags := [] }

/-- `parseBodyPattern`. -/
def parseBodyPattern (line : List Char) : Option Annot :=
  match matchTokenQuoted kwBody line with
  | none => none
  | some (sch, d) =>
    let args := [(kSchema, sch), (kDescription, d)]
    let args := args ++
      (if containsSub sRequired line then [(kRequired, vTrue)] else [])
    some { type := .body, rawLine := line, args := args, tags := [] }

/-- `parseResponsePattern`. -/
def parseResponsePattern (line : List Char) : Option Annot :=
  match matchResponse line with
  | none => none
  | some (k, st, sch, d) =>
    let st := if k = litOk ∧ st = [] then v200 else st
    let st := if k = litError ∧ st = [] then v500 else st
    let ty := if k = litError then AnnotationType.error else AnnotationType.ok
    some { type := ty, rawLine := line,
           args := [(kStatus, st), (kSchema, sch), (kDescription, d)],
           tags := [] }

/-- `parseSecurePattern`. -/
def parseSecurePattern (line : List Char) : Option Annot :=
  match matchSecure line with
  | none => none
  | some g =>
    let names := goFields g
    some { type := .secure, rawLine := line,
           args := [(kNames, joinComma names)], tags := names }

/-- `parseWebhookPattern` (tries webhook, webhook-body, webhook-response). -/
def parseWebhookPattern (line : List Char) : Option Annot :=
  match matchWebhook line with
  | some (nm, m, d) =>
    some { type := .webhook, rawLine := line,
           args := [(kName, nm), (kMethod, m), (kDescription, d)],
           tags := [] }
  | none =>
  match matchWebhookBody line with
  | some (sch, d) =>
    some { type := .webhookBody, rawLine := line,
           args := [(kSchema, sch), (kDescription, d)], tags := [] }
  | none =>
  match matchWebhookResp line with
  | some (st, sch, d) =>
    some { type := .webhookResponse, rawLine := line,
           args := [(kStatus, st), (kSchema, sch), (kDescription, d)],
           tags := [] }
  | none => none

/-- `parseModelPattern`. -/
def parseModelPattern (line : List Char) : Option Annot :=
  match matchModel line with
  | none => none
  | some d =>
    some { type := .model, rawLine := line,
           args := [(kDescription, d)], tags := [] }

/-- `parseFieldPattern`. -/
def parseFieldPattern (line : List Char) : Option Annot :=
  match matchField line with
  | none => none
  | some (nm, ty, d) =>
    let args := [(kName, nm), (kType, ty), (kDescription, d)]
    let args := args ++
      (if containsSub sRequired line then [(kRequired, vTrue)] else [])
    let args := args ++
      (match scanExample line with
       | some v => [(kExample, trimQuotes v)]
       | none => [])
    some { type := .field, rawLine := line, args := args, tags := [] }

/-- `parseLine`: the fixed priority order of the source. -/
def parseLine (line : List Char) : Option Annot :=
  match parseSimplePatterns line with
  | some a => some a
  | none =>
  match parseRoutePattern line with
  | some a => some a
  | none =>
  match parseParamPattern line with
  | some a => some a
  | none =>
  match parseBodyPattern line with
  | some a => some a
  | none =>
  match parseResponsePattern line with
  | some a => some a
  | none =>
  match parseSecurePattern line with
  | some a => some a
  | none =>
  match parseWebhookPattern line with
  | some a => some a
  | none =>
  match parseModelPattern line with
  | some a => some a
  | none => parseFieldPattern line

/-- The per-line step of `Parse`: trim, skip lines not starting with `!`,
then `parseLine`. -/
def lineAnn (raw : List Char) : Option Annot :=
  let line := goTrimSpace raw
  if ['!'].isPrefixOf line then parseLine line else none

/-- The accumulating loop of `Parse` (`annotations = append(annotations, *a)`). -/
def parseLoop : List (List Char) → List Annot → List Annot
  | [], acc => acc
  | l :: rest, acc =>
    match lineAnn l with
    | some a => parseLoop rest (acc ++ [a])
    | none => parseLoop rest acc

/-- `Parse`: extract all annotations from a comment text. -/
def Parse (text : String) : List Annot :=
  parseLoop (splitOnNl text.toList) []

/-! ## The `Get*` helpers of the source that the claims mention -/

/-- `GetParam(...).Required` — `a.Args["required"] == argTrue`. -/
def GetParamRequired (a : Annot) : Bool := a.arg kRequired == vTrue

/-- `GetBody(...).Required`. -/
def GetBodyRequired (a : Annot) : Bool := a.arg kRequired == vTrue

/-- `GetField(...).Required`. -/
def GetFieldRequired (a : Annot) : Bool := a.arg kRequired == vTrue

/-- `GetParam(...).Default`. -/
def GetParamDefault (a : Annot) : List Char := a.arg kDefault

/-- `GetField(...).Example`. -/
def GetFieldExample (a : Annot) : List Char := a.arg kExample

/-! ## Guaranteed attribute keys per annotation kind

`parseSimplePatterns` writes one key per capture group of the matched
regex (the `i+1 < len(match)` guard always holds because every table entry
has as many keys as its regex has groups, and an unmatched optional group is
the empty string); the dedicated parse functions write a fixed base key set
and optionally `required` / `default` / `example` on top.  `guaranteedKeys`
records the base key set of each kind. -/
def guaranteedKeys : AnnotationType → List (List Char)
  | .api => [kVersion]
  | .info => [kTitle, kVersion, kDescription]
  | .contact => [kName, kEmail, kUrl]
  | .license => [kName, kUrl]
  | .server => [kUrl, kDescription]
  | .tag => [kName, kDescription]
  | .tos => [kUrl]
  | .security => [kName, kType, kLocation, kDescription, kUrl]
  | .scope => [kSecurityKey, kName, kDescription]
  | .externalDocs => [kUrl, kDescription]
  | .link => [kLabel, kUrl]
  | .webhook => [kName, kMethod, kDescription]
  | .webhookBody => [kSchema, kDescription]
  | .webhookResponse => [kStatus, kSchema, kDescription]
  | .route => [kMethod, kPath, kOperationId, kSummary]
  | .query => [kIn, kName, kType, kDescription]
  | .path => [kIn, kName, kType, kDescription]
  | .header => [kIn, kName, kType, kDescription]
  | .body => [kSchema, kDescription]
  | .ok => [kStatus, kSchema, kDescription]
  | .error => [kStatus, kSchema, kDescription]
  | .secure => [kNames]
  | .model => [kDescription]
  | .field => [kName, kType, kDescription]

/-! ## Document Assembler (operation scope)

Modelled from the spec: the Document Assembler is not shipped under `src/`
(only its data consumers are), so its duplicate-(path, method) handling is
modelled from the specification's words: blocks are processed in declaration
order; a block whose (path, method) pair is already taken is reported as one
error Diagnostic naming both locations and discarded (first wins); the build
continues with the remaining blocks. -/

/-- Modelled from the spec: Diagnostic severity. -/
inductive Severity where
  | error
  | warning
deriving DecidableEq, Repr

/-- Modelled from the spec: a Diagnostic, abstracted to its severity and the
source locations its message names. -/
structure Diagnostic where
  sev : Severity
  locs : List (List Char)
deriving DecidableEq, Repr

/-- Modelled from the spec: an operation-scope block — the (method, path,
operationId) established by its route directive plus its source location. -/
structure OpBlock where
  method : List Char
  path : List Char
  opId : List Char
  loc : List Char
deriving DecidableEq, Repr

/-- Modelled from the spec: fold over the operation blocks in declaration
order, keeping the first declaration of each (path, method) pair and
reporting an error Diagnostic for each later duplicate. -/
def assembleLoop : List OpBlock → List OpBlock → List Diagnostic →
    List OpBlock × List Diagnostic
  | [], ops, ds => (ops, ds)
  | b :: rest, ops, ds =>
    match ops.find? (fun p => p.path == b.path && p.method == b.method) with
    | some p =>
      assembleLoop rest ops (ds ++ [⟨Severity.error, [p.loc, b.loc]⟩])
    | none => assembleLoop rest (ops ++ [b]) ds

/-- Modelled from the spec: `Assemble` restricted to the operation scope —
the surviving Operations (in declaration order) and the Diagnostics. -/
def Assemble (bs : List OpBlock) : List OpBlock × List Diagnostic :=
  assembleLoop bs [] []

/-! ## Shared lemmas -/

theorem takeWhile_all {p : Char → Bool} :
    ∀ {l : List Char}, (∀ c ∈ l, p c = true) → l.takeWhile p = l
  | [], _ => rfl
  | c :: t, h => by
    rw [List.takeWhile_cons_of_pos (h c (by simp)),
        takeWhile_all (fun x hx => h x (by simp [hx]))]

theorem dropWhile_all {p : Char → Bool} :
    ∀ {l : List Char}, (∀ c ∈ l, p c = true) → l.dropWhile p = []
  | [], _ => rfl
  | c :: t, h => by
    rw [List.dropWhile_cons_of_pos (h c (by simp))]
    exact dropWhile_all (fun x hx => h x (by simp [hx]))

theorem takeWhile_append_all {p : Char → Bool} {a : List Char}
    (b : List Char) (h : ∀ c ∈ a, p c = true) :
    (a ++ b).takeWhile p = a ++ b.takeWhile p := by
  induction a with
  | nil => simp
  | cons c t ih =>
    rw [List.cons_append, List.takeWhile_cons_of_pos (h c (by simp)),
        ih (fun x hx => h x (by simp [hx])), List.cons_append]

theorem dropWhile_append_all {p : Char → Bool} {a : List Char}
    (b : List Char) (h : ∀ c ∈ a, p c = true) :
    (a ++ b).dropWhile p = b.dropWhile p := by
  induction a with
  | nil => simp
  | cons c t ih =>
    rw [List.cons_append, List.dropWhile_cons_of_pos (h c (by simp)),
        ih (fun x hx => h x (by simp [hx]))]

theorem takeWhile_none {p : Char → Bool} :
    ∀ {l : List Char}, (∀ c ∈ l, p c = false) → l.takeWhile p = []
  | [], _ => rfl
  | c :: _, h => by
    rw [List.takeWhile_cons_of_neg (by simp [h c (by simp)])]

theorem dropWhile_self {p : Char → Bool} :
    ∀ {l : List Char}, (∀ c ∈ l, p c = false) → l.dropWhile p = l
  | [], _ => rfl
  | c :: _, h => by
    rw [List.dropWhile_cons_of_neg (by simp [h c (by simp)])]

theorem plusP_all {p : Char → Bool} {l : List Char}
    (h : ∀ c ∈ l, p c = true) (hne : l ≠ []) : plusP p l = some (l, []) := by
  cases l with
  | nil => exact absurd rfl hne
  | cons c t =>
    have h1 : t.takeWhile p = t :=
      takeWhile_all (fun x hx => h x (List.mem_cons_of_mem _ hx))
    have h2 : t.dropWhile p = [] :=
      dropWhile_all (fun x hx => h x (List.mem_cons_of_mem _ hx))
    simp [plusP, h c (by simp), h1, h2]

theorem plusP_none {p : Char → Bool} {l : List Char}
    (h : ∀ c ∈ l, p c = false) : plusP p l = none := by
  cases l with
  | nil => rfl
  | cons c t => simp [plusP, h c (by simp)]

theorem plusP_some {p : Char → Bool} {l a b : List Char}
    (h : plusP p l = some (a, b)) :
    a = l.takeWhile p ∧ b = l.dropWhile p := by
  cases l with
  | nil => simp [plusP] at h
  | cons c t =>
    by_cases hc : p c
    · simp only [plusP, hc, if_true, Option.some.injEq, Prod.mk.injEq] at h
      rw [List.takeWhile_cons_of_pos hc, List.dropWhile_cons_of_pos hc]
      exact ⟨h.1.symm, h.2.symm⟩
    · simp [plusP, hc] at h

theorem reDigit_not_space {c : Char} (h : reDigit c = true) :
    reSpace c = false := by
  simp only [reDigit, Bool.and_eq_true, decide_eq_true_eq] at h
  simp only [reSpace, Bool.or_eq_false_iff, beq_eq_false_iff_ne]
  refine ⟨⟨⟨⟨?_, ?_⟩, ?_⟩, ?_⟩, ?_⟩ <;> rintro rfl <;> revert h <;> decide

theorem reWord_not_space {c : Char} (h : reWord c = true) :
    reSpace c = false := by
  simp only [reWord, reDigit, Bool.or_eq_true, Bool.and_eq_true,
    decide_eq_true_eq, beq_iff_eq] at h
  simp only [reSpace, Bool.or_eq_false_iff, beq_eq_false_iff_ne]
  refine ⟨⟨⟨⟨?_, ?_⟩, ?_⟩, ?_⟩, ?_⟩ <;> rintro rfl <;> revert h <;> decide

theorem reWordHyphen_not_space {c : Char} (h : reWordHyphen c = true) :
    reSpace c = false := by
  simp only [reWordHyphen, Bool.or_eq_true, beq_iff_eq] at h
  rcases h with h | rfl
  · exact reWord_not_space h
  · rfl

theorem reNonSpace_of_not_space {c : Char} (h : reSpace c = false) :
    reNonSpace c = true := by
  simp [reNonSpace, h]

theorem reWord_wordHyphen {c : Char} (h : reWord c = true) :
    reWordHyphen c = true := by
  simp [reWordHyphen, h]

theorem argLookup_cons_self (k v : List Char)
    (rest : List (List Char × List Char)) :
    argLookup k ((k, v) :: rest) = v := by
  simp [argLookup]

theorem argLookup_cons_ne {k k2 : List Char} (h : k ≠ k2) (v : List Char)
    (rest : List (List Char × List Char)) :
    argLookup k ((k2, v) :: rest) = argLookup k rest := by
  simp [argLookup, h]

theorem hasKey_cons_self (k v : List Char)
    (rest : List (List Char × List Char)) :
    hasKey k ((k, v) :: rest) = true := by
  simp [hasKey]

theorem hasKey_cons (k k2 v : List Char)
    (rest : List (List Char × List Char)) :
    hasKey k ((k2, v) :: rest) = (decide (k = k2) || hasKey k rest) := by
  simp [hasKey]

/-! ## C1 — the Lexer is total, per line, in line order -/

theorem parseLoop_eq (ls : List (List Char)) (acc : List Annot) :
    parseLoop ls acc = acc ++ ls.filterMap lineAnn := by
  induction ls generalizing acc with
  | nil => simp [parseLoop]
  | cons l rest ih =>
    cases h : lineAnn l with
    | none => simp [parseLoop, h, ih]
    | some a => simp [parseLoop, h, ih]

/-- C1: `Parse` never fails on a comment block: it is the `filterMap` of the
per-line function `lineAnn` over the `\n`-split lines — every line on which
`parseLine` recognizes no directive (unknown keyword or malformed body,
i.e. `lineAnn` is `none`) contributes no annotation and no error, and every
recognized directive line contributes exactly its one annotation, in line
order. -/
theorem parse_is_total_per_line_filterMap (text : String) :
    Parse text = (splitOnNl text.toList).filterMap lineAnn := by
  simp [Parse, parseLoop_eq]

/-! ## C8 — `Parse` is deterministic -/

/-- C8: `Parse` is a pure function of the input text: equal texts yield
equal annotation lists (the embedding has no state shared between runs, so
two invocations coincide). -/
theorem parse_deterministic (t1 t2 : String) (h : t1 = t2) :
    Parse t1 = Parse t2 :=
  congrArg Parse h

theorem parse_deterministic_witness :
    ("!api 3.0.3\n!GET /u -> g \x22s\x22" : String) = "!api 3.0.3\n!GET /u -> g \x22s\x22" ∧
    Parse ("!api 3.0.3\n!GET /u -> g \x22s\x22") = Parse ("!api 3.0.3\n!GET /u -> g \x22s\x22") :=
  ⟨rfl, parse_deterministic _ _ rfl⟩

/-! ## C7 — duplicate (path, method): one error Diagnostic, first wins -/

/-- C7 (spec-modelled): two blocks declaring the same (path, method) yield
exactly one error Diagnostic naming both locations and exactly one surviving
Operation — the first declared — and the build continues: a later distinct
block is still assembled. -/
theorem assemble_duplicate_first_wins (b1 b2 b3 : OpBlock)
    (hp : b1.path = b2.path) (hm : b1.method = b2.method)
    (hd : b3.path ≠ b1.path ∨ b3.method ≠ b1.method) :
    Assemble [b1, b2] = ([b1], [⟨Severity.error, [b1.loc, b2.loc]⟩]) ∧
    Assemble [b1, b2, b3] = ([b1, b3], [⟨Severity.error, [b1.loc, b2.loc]⟩]) := by
  have h2 : (b1.path == b2.path && b1.method == b2.method) = true := by
    simp [hp, hm]
  have h3 : (b1.path == b3.path && b1.method == b3.method) = false := by
    rcases hd with hd | hd
    · have hb : (b1.path == b3.path) = false :=
        beq_eq_false_iff_ne.mpr (fun e => hd e.symm)
      simp [hb]
    · have hb : (b1.method == b3.method) = false :=
        beq_eq_false_iff_ne.mpr (fun e => hd e.symm)
      simp [hb]
  constructor <;>
    simp [Assemble, assembleLoop, List.find?, h2, h3]

theorem assemble_duplicate_first_wins_witness :
    Assemble [⟨['G'], ['/', 'u'], ['a'], ['L', '1']⟩,
              ⟨['G'], ['/', 'u'], ['b'], ['L', '2']⟩] =
      ([⟨['G'], ['/', 'u'], ['a'], ['L', '1']⟩],
       [⟨Severity.error, [['L', '1'], ['L', '2']]⟩]) ∧
    Assemble [⟨['G'], ['/', 'u'], ['a'], ['L', '1']⟩,
              ⟨['G'], ['/', 'u'], ['b'], ['L', '2']⟩,
              ⟨['P'], ['/', 'u'], ['c'], ['L', '3']⟩] =
      ([⟨['G'], ['/', 'u'], ['a'], ['L', '1']⟩,
        ⟨['P'], ['/', 'u'], ['c'], ['L', '3']⟩],
       [⟨Severity.error, [['L', '1'], ['L', '2']]⟩]) :=
  assemble_duplicate_first_wins _ _ _ rfl rfl (Or.inr (by decide))

theorem argLookup_skip (k : List Char) :
    ∀ (base ys : List (List Char × List Char)), (∀ kv ∈ base, k ≠ kv.1) →
      argLookup k (base ++ ys) = argLookup k ys := by
  intro base
  induction base with
  | nil => simp
  | cons kv rest ih =>
    intro ys h
    rw [List.cons_append, argLookup_cons_ne (h kv (by simp))]
    exact ih ys (fun x hx => h x (by simp [hx]))

/-! ## C3 — `Required` is true iff the line contains `" required"` -/

/-- C3: for every line on which the parameter grammar matches, the produced
annotation's `Required` attribute (as read by `GetParam`) is `true` exactly
when the literal substring `" required"` occurs in the line; the same holds
for `!body` (`GetBody`) and `!field` (`GetField`) lines. -/
theorem required_iff_contains (line : List Char) :
    (∀ a, parseParamPattern line = some a →
      GetParamRequired a = containsSub sRequired line) ∧
    (∀ a, parseBodyPattern line = some a →
      GetBodyRequired a = containsSub sRequired line) ∧
    (∀ a, parseFieldPattern line = some a →
      GetFieldRequired a = containsSub sRequired line) := by
  refine ⟨?_, ?_, ?_⟩
  · intro a h
    cases hm : matchParam line with
    | none => simp [parseParamPattern, hm] at h
    | some m =>
      obtain ⟨loc, nm, ty, d⟩ := m
      simp only [parseParamPattern, hm, Option.some.injEq] at h
      subst h
      simp only [GetParamRequired, Annot.arg]
      have hskip : ∀ ys, argLookup kRequired
          ([(kIn, loc), (kName, nm), (kType, ty), (kDescription, d)] ++ ys) =
          argLookup kRequired ys := by
        intro ys
        refine argLookup_skip _ _ ys ?_
        intro kv hkv
        rcases List.mem_cons.mp hkv with rfl | hkv
        · exact (by decide : kRequired ≠ kIn)
        rcases List.mem_cons.mp hkv with rfl | hkv
        · exact (by decide : kRequired ≠ kName)
        rcases List.mem_cons.mp hkv with rfl | hkv
        · exact (by decide : kRequired ≠ kType)
        rcases List.mem_cons.mp hkv with rfl | hkv
        · exact (by decide : kRequired ≠ kDescription)
        · simp at hkv
      cases hc : containsSub sRequired line with
      | true =>
        rw [List.append_assoc, hskip]
        simp only [if_true, List.cons_append, List.nil_append,
          argLookup_cons_self]
        decide
      | false =>
        rw [List.append_assoc, hskip]
        simp only [Bool.false_eq_true, if_false, List.nil_append]
        cases hs : scanKeyToken kwDefaultEq line with
        | none => decide
        | some v =>
          rw [argLookup_cons_ne (by decide)]
          decide
  · intro a h
    cases hm : matchTokenQuoted kwBody line with
    | none => simp [parseBodyPattern, hm] at h
    | some m =>
      obtain ⟨sch, d⟩ := m
      simp only [parseBodyPattern, hm, Option.some.injEq] at h
      subst h
      simp only [GetBodyRequired, Annot.arg]
      have hskip : ∀ ys, argLookup kRequired
          ([(kSchema, sch), (kDescription, d)] ++ ys) =
          argLookup kRequired ys := by
        intro ys
        refine argLookup_skip _ _ ys ?_
        intro kv hkv
        rcases List.mem_cons.mp hkv with rfl | hkv
        · exact (by decide : kRequired ≠ kSchema)
        rcases List.mem_cons.mp hkv with rfl | hkv
        · exact (by decide : kRequired ≠ kDescription)
        · simp at hkv
      cases hc : containsSub sRequired line with
      | true =>
        rw [hskip]
        simp only [if_true, argLookup_cons_self]
        decide
      | false =>
        rw [hskip]
        simp only [Bool.false_eq_true, if_false, argLookup]
        decide
  · intro a h
    cases hm : matchField line with
    | none => simp [parseFieldPattern, hm] at h
    | some m =>
      obtain ⟨nm, ty, d⟩ := m
      simp only [parseFieldPattern, hm, Option.some.injEq] at h
      subst h
      simp only [GetFieldRequired, Annot.arg]
      have hskip : ∀ ys, argLookup kRequired
          ([(kName, nm), (kType, ty), (kDescription, d)] ++ ys) =
          argLookup kRequired ys := by
        intro ys
        refine argLookup_skip _ _ ys ?_
        intro kv hkv
        rcases List.mem_cons.mp hkv with rfl | hkv
        · exact (by decide : kRequired ≠ kName)
        rcases List.mem_cons.mp hkv with rfl | hkv
        · exact (by decide : kRequired ≠ kType)
        rcases List.mem_cons.mp hkv with rfl | hkv
        · exact (by decide : kRequired ≠ kDescription)
        · simp at hkv
      cases hc : containsSub sRequired line with
      | true =>
        rw [List.append_assoc, hskip]
        simp only [if_true, List.cons_append, List.nil_append,
          argLookup_cons_self]
        decide
      | false =>
        rw [List.append_assoc, hskip]
        simp only [Bool.false_eq_true, if_false, List.nil_append]
        cases hs : scanExample line with
        | none => decide
        | some v =>
          rw [argLookup_cons_ne (by decide)]
          decide

theorem required_iff_contains_witness :
    (parseParamPattern (("!query limit:integer required").toList) =
      some { type := .query,
             rawLine := ("!query limit:integer required").toList,
             args := [(kIn, ['q', 'u', 'e', 'r', 'y']),
                      (kName, ['l', 'i', 'm', 'i', 't']),
                      (kType, ['i', 'n', 't', 'e', 'g', 'e', 'r']),
                      (kDescription, []), (kRequired, vTrue)],
             tags := [] }) ∧
    GetParamRequired
      { type := .query,
        rawLine := ("!query limit:integer required").toList,
        args := [(kIn, ['q', 'u', 'e', 'r', 'y']),
                 (kName, ['l', 'i', 'm', 'i', 't']),
                 (kType, ['i', 'n', 't', 'e', 'g', 'e', 'r']),
                 (kDescription, []), (kRequired, vTrue)],
        tags := [] } =
      containsSub sRequired (("!query limit:integer required").toList) :=
  ⟨by decide, (required_iff_contains _).1 _ (by decide)⟩

/-! ## Case analysis over `parseLine` -/

theorem hasKey_append (k : List Char) (xs ys : List (List Char × List Char)) :
    hasKey k (xs ++ ys) = (hasKey k xs || hasKey k ys) := by
  induction xs with
  | nil => simp [hasKey]
  | cons kv rest ih => simp [hasKey, ih, Bool.or_assoc]

theorem parseLine_cases {line : List Char} {a : Annot}
    (h : parseLine line = some a) :
    parseSimplePatterns line = some a ∨ parseRoutePattern line = some a ∨
    parseParamPattern line = some a ∨ parseBodyPattern line = some a ∨
    parseResponsePattern line = some a ∨ parseSecurePattern line = some a ∨
    parseWebhookPattern line = some a ∨ parseModelPattern line = some a ∨
    parseFieldPattern line = some a := by
  unfold parseLine at h
  repeat' split at h
  all_goals simp_all

theorem keys_simple {line : List Char} {a : Annot}
    (h : parseSimplePatterns line = some a) :
    ∀ k ∈ guaranteedKeys a.type, hasKey k a.args = true := by
  unfold parseSimplePatterns at h
  repeat' split at h
  all_goals first
    | exact Option.noConfusion h
    | (simp only [Option.some.injEq] at h; subst h
       simp [guaranteedKeys, hasKey, List.forall_mem_cons])

theorem keys_route {line : List Char} {a : Annot}
    (h : parseRoutePattern line = some a) :
    ∀ k ∈ guaranteedKeys a.type, hasKey k a.args = true := by
  unfold parseRoutePattern at h
  repeat' split at h
  all_goals first
    | exact Option.noConfusion h
    | (simp only [Option.some.injEq] at h; subst h
       simp [guaranteedKeys, hasKey, List.forall_mem_cons])

theorem keys_param {line : List Char} {a : Annot}
    (h : parseParamPattern line = some a) :
    ∀ k ∈ guaranteedKeys a.type, hasKey k a.args = true := by
  unfold parseParamPattern at h
  repeat' split at h
  all_goals first
    | exact Option.noConfusion h
    | (simp only [Option.some.injEq] at h; subst h
       repeat' split
       all_goals simp [guaranteedKeys, hasKey, hasKey_append,
         List.forall_mem_cons])

theorem keys_body {line : List Char} {a : Annot}
    (h : parseBodyPattern line = some a) :
    ∀ k ∈ guaranteedKeys a.type, hasKey k a.args = true := by
  unfold parseBodyPattern at h
  repeat' split at h
  all_goals first
    | exact Option.noConfusion h
    | (simp only [Option.some.injEq] at h; subst h
       simp [guaranteedKeys, hasKey, hasKey_append, List.forall_mem_cons])

theorem keys_response {line : List Char} {a : Annot}
    (h : parseResponsePattern line = some a) :
    ∀ k ∈ guaranteedKeys a.type, hasKey k a.args = true := by
  unfold parseResponsePattern at h
  repeat' split at h
  all_goals first
    | exact Option.noConfusion h
    | (simp only [Option.some.injEq] at h; subst h
       repeat' split
       all_goals simp [guaranteedKeys, hasKey, List.forall_mem_cons])

theorem keys_secure {line : List Char} {a : Annot}
    (h : parseSecurePattern line = some a) :
    ∀ k ∈ guaranteedKeys a.type, hasKey k a.args = true := by
  unfold parseSecurePattern at h
  repeat' split at h
  all_goals first
    | exact Option.noConfusion h
    | (simp only [Option.some.injEq] at h; subst h
       simp [guaranteedKeys, hasKey, List.forall_mem_cons])

theorem keys_webhook {line : List Char} {a : Annot}
    (h : parseWebhookPattern line = some a) :
    ∀ k ∈ guaranteedKeys a.type, hasKey k a.args = true := by
  unfold parseWebhookPattern at h
  repeat' split at h
  all_goals first
    | exact Option.noConfusion h
    | (simp only [Option.some.injEq] at h; subst h
       simp [guaranteedKeys, hasKey, List.forall_mem_cons])

theorem keys_model {line : List Char} {a : Annot}
    (h : parseModelPattern line = some a) :
    ∀ k ∈ guaranteedKeys a.type, hasKey k a.args = true := by
  unfold parseModelPattern at h
  repeat' split at h
  all_goals first
    | exact Option.noConfusion h
    | (simp only [Option.some.injEq] at h; subst h
       simp [guaranteedKeys, hasKey, List.forall_mem_cons])

theorem keys_field {line : List Char} {a : Annot}
    (h : parseFieldPattern line = some a) :
    ∀ k ∈ guaranteedKeys a.type, hasKey k a.args = true := by
  unfold parseFieldPattern at h
  repeat' split at h
  all_goals first
    | exact Option.noConfusion h
    | (simp only [Option.some.injEq] at h; subst h
       simp [guaranteedKeys, hasKey, hasKey_append, List.forall_mem_cons])

/-! ## C6 — guaranteed keys per kind; `!security` carries all five keys -/

/-- C6: every annotation produced by a `parseLine` hit carries all the
attribute keys its kind guarantees (optional groups that did not match are
stored as empty-string values, never dropped); in particular a matching
`!security` line carries the name, type, location, description and url
keys. -/
theorem kind_guaranteed_keys {line : List Char} {a : Annot}
    (h : parseLine line = some a) :
    (∀ k ∈ guaranteedKeys a.type, hasKey k a.args = true) ∧
    (a.type = .security →
      hasKey kName a.args = true ∧ hasKey kType a.args = true ∧
      hasKey kLocation a.args = true ∧ hasKey kDescription a.args = true ∧
      hasKey kUrl a.args = true) := by
  have hall : ∀ k ∈ guaranteedKeys a.type, hasKey k a.args = true := by
    rcases parseLine_cases h with h | h | h | h | h | h | h | h | h
    exacts [keys_simple h, keys_route h, keys_param h, keys_body h,
      keys_response h, keys_secure h, keys_webhook h, keys_model h,
      keys_field h]
  refine ⟨hall, fun hsec => ?_⟩
  rw [hsec] at hall
  exact ⟨hall kName (by simp [guaranteedKeys]),
    hall kType (by simp [guaranteedKeys]),
    hall kLocation (by simp [guaranteedKeys]),
    hall kDescription (by simp [guaranteedKeys]),
    hall kUrl (by simp [guaranteedKeys])⟩

theorem kind_guaranteed_keys_witness :
    parseLine (("!security api_key:apiKey:header").toList) =
      some { type := .security,
             rawLine := ("!security api_key:apiKey:header").toList,
             args := [(kName, ['a', 'p', 'i', '_', 'k', 'e', 'y']),
                      (kType, ['a', 'p', 'i', 'K', 'e', 'y']),
                      (kLocation, ['h', 'e', 'a', 'd', 'e', 'r']),
                      (kDescription, []), (kUrl, [])],
             tags := [] } ∧
    (∀ k ∈ guaranteedKeys AnnotationType.security,
      hasKey k [(kName, ['a', 'p', 'i', '_', 'k', 'e', 'y']),
                (kType, ['a', 'p', 'i', 'K', 'e', 'y']),
                (kLocation, ['h', 'e', 'a', 'd', 'e', 'r']),
                (kDescription, []), (kUrl, [])] = true) :=
  ⟨by decide,
   (@kind_guaranteed_keys (("!security api_key:apiKey:header").toList)
      { type := .security,
        rawLine := ("!security api_key:apiKey:header").toList,
        args := [(kName, ['a', 'p', 'i', '_', 'k', 'e', 'y']),
                 (kType, ['a', 'p', 'i', 'K', 'e', 'y']),
                 (kLocation, ['h', 'e', 'a', 'd', 'e', 'r']),
                 (kDescription, []), (kUrl, [])],
        tags := [] } (by decide)).1⟩

/-! ## C5 — route tags are scanned from the whole line (corrected) -/

theorem simple_not_route {line : List Char} {a : Annot}
    (h : parseSimplePatterns line = some a) : a.type ≠ .route := by
  unfold parseSimplePatterns at h
  repeat' split at h
  all_goals first
    | exact Option.noConfusion h
    | (simp only [Option.some.injEq] at h; subst h; simp)

theorem param_not_route {line : List Char} {a : Annot}
    (h : parseParamPattern line = some a) : a.type ≠ .route := by
  unfold parseParamPattern at h
  repeat' split at h
  all_goals first
    | exact Option.noConfusion h
    | (simp only [Option.some.injEq] at h; subst h; simp)

theorem body_not_route {line : List Char} {a : Annot}
    (h : parseBodyPattern line = some a) : a.type ≠ .route := by
  unfold parseBodyPattern at h
  repeat' split at h
  all_goals first
    | exact Option.noConfusion h
    | (simp only [Option.some.injEq] at h; subst h; simp)

theorem response_not_route {line : List Char} {a : Annot}
    (h : parseResponsePattern line = some a) : a.type ≠ .route := by
  unfold parseResponsePattern at h
  repeat' split at h
  all_goals first
    | exact Option.noConfusion h
    | (simp only [Option.some.injEq] at h; subst h; simp)

theorem secure_not_route {line : List Char} {a : Annot}
    (h : parseSecurePattern line = some a) : a.type ≠ .route := by
  unfold parseSecurePattern at h
  repeat' split at h
  all_goals first
    | exact Option.noConfusion h
    | (simp only [Option.some.injEq] at h; subst h; simp)

theorem webhook_not_route {line : List Char} {a : Annot}
    (h : parseWebhookPattern line = some a) : a.type ≠ .route := by
  unfold parseWebhookPattern at h
  repeat' split at h
  all_goals first
    | exact Option.noConfusion h
    | (simp only [Option.some.injEq] at h; subst h; simp)

theorem model_not_route {line : List Char} {a : Annot}
    (h : parseModelPattern line = some a) : a.type ≠ .route := by
  unfold parseModelPattern at h
  repeat' split at h
  all_goals first
    | exact Option.noConfusion h
    | (simp only [Option.some.injEq] at h; subst h; simp)

theorem field_not_route {line : List Char} {a : Annot}
    (h : parseFieldPattern line = some a) : a.type ≠ .route := by
  unfold parseFieldPattern at h
  repeat' split at h
  all_goals first
    | exact Option.noConfusion h
    | (simp only [Option.some.injEq] at h; subst h; simp)

theorem route_parser_tags {line : List Char} {a : Annot}
    (h : parseRoutePattern line = some a) : a.tags = extractTags line := by
  unfold parseRoutePattern at h
  repeat' split at h
  all_goals first
    | exact Option.noConfusion h
    | (simp only [Option.some.injEq] at h; subst h; simp)

/-- C5 counterexample: on `!GET /x -> getX "see #note" #t` the produced tag
list is `["note", "t"]` — the `#note` inside the summary is included — so
the tag list is not "exactly the `#`-prefixed tokens that follow the
summary" (which would be `["t"]`). -/
theorem route_tags_cex :
    (parseLine (("!GET /x -> getX \x22see #note\x22 #t").toList)).map
        (fun a => a.tags) =
      some [['n', 'o', 't', 'e'], ['t']] ∧
    ([['n', 'o', 't', 'e'], ['t']] : List (List Char)) ≠ [['t']] := by
  constructor
  · decide
  · decide

/-- C5 amended: the tag list of a route annotation equals the `#(\w+)`
matches of the whole raw line, in order with duplicates preserved —
including `#`-tokens occurring in the path, operationId or summary text,
not only those following the summary. -/
theorem route_tags_whole_line {line : List Char} {a : Annot}
    (h : parseLine line = some a) (ht : a.type = .route) :
    a.tags = extractTags line := by
  rcases parseLine_cases h with h | h | h | h | h | h | h | h | h
  · exact absurd ht (simple_not_route h)
  · exact route_parser_tags h
  · exact absurd ht (param_not_route h)
  · exact absurd ht (body_not_route h)
  · exact absurd ht (response_not_route h)
  · exact absurd ht (secure_not_route h)
  · exact absurd ht (webhook_not_route h)
  · exact absurd ht (model_not_route h)
  · exact absurd ht (field_not_route h)

theorem route_tags_whole_line_witness :
    (parseLine (("!GET /x -> getX \x22see #note\x22 #t").toList)).map
        (fun a => a.tags) =
      some (extractTags (("!GET /x -> getX \x22see #note\x22 #t").toList)) := by
  have h : parseLine (("!GET /x -> getX \x22see #note\x22 #t").toList) =
      some { type := .route,
             rawLine := ("!GET /x -> getX \x22see #note\x22 #t").toList,
             args := [(kMethod, ['G', 'E', 'T']), (kPath, ['/', 'x']),
                      (kOperationId, ['g', 'e', 't', 'X']),
                      (kSummary, ('s' :: 'e' :: 'e' :: ' ' :: '#' :: ['n', 'o', 't', 'e']))],
             tags := [['n', 'o', 't', 'e'], ['t']] } := by decide
  rw [h]
  simp only [Option.map_some']
  exact congrArg some (route_tags_whole_line h rfl)

/-! ## Symbolic evaluation of the response grammar (C2, C9) -/

theorem optStatus_nonspace {l : List Char}
    (h : ∀ c ∈ l, reSpace c = false) : optStatus l = ([], l) := by
  unfold optStatus
  cases hd : plusP reDigit l with
  | none => rfl
  | some p =>
    obtain ⟨d, r2⟩ := p
    obtain ⟨-, hd2⟩ := plusP_some hd
    have hr2 : ∀ c ∈ r2, reSpace c = false := by
      intro c hc
      rw [hd2] at hc
      exact h c ((List.dropWhile_suffix reDigit).sublist.subset hc)
    simp only [plusP_none hr2]

theorem optStatus_digits {st sch : List Char}
    (hd : ∀ c ∈ st, reDigit c = true) (hne : st ≠ [])
    (hs : ∀ c ∈ sch, reSpace c = false) (hsne : sch ≠ []) :
    optStatus (st ++ ' ' :: sch) = (st, sch) := by
  have hp : plusP reDigit (st ++ ' ' :: sch) = some (st, ' ' :: sch) := by
    cases st with
    | nil => exact absurd rfl hne
    | cons c st' =>
      have hall : ∀ x ∈ st', reDigit x = true :=
        fun x hx => hd x (List.mem_cons_of_mem _ hx)
      rw [List.cons_append]
      simp only [plusP, hd c (by simp), if_true]
      rw [takeWhile_append_all _ hall, dropWhile_append_all _ hall,
          List.takeWhile_cons_of_neg (by decide),
          List.dropWhile_cons_of_neg (by decide)]
      simp
  have hq : plusP reSpace (' ' :: sch) = some ([' '], sch) := by
    have h1 : reSpace ' ' = true := by decide
    simp only [plusP, h1, if_true, takeWhile_none hs, dropWhile_self hs]
  unfold optStatus
  simp only [hp, hq]
  cases sch with
  | nil => exact absurd rfl hsne
  | cons e sch' => simp

theorem respTail_omitted {k sch : List Char}
    (hs : ∀ c ∈ sch, reSpace c = false) (hsne : sch ≠ []) :
    respTail k sch = some (k, [], sch, []) := by
  unfold respTail
  rw [optStatus_nonspace hs]
  have h2 : plusP reNonSpace sch = some (sch, []) :=
    plusP_all (fun c hc => reNonSpace_of_not_space (hs c hc)) hsne
  simp only [h2]
  rfl

theorem respTail_explicit {k st sch : List Char}
    (hd : ∀ c ∈ st, reDigit c = true) (hne : st ≠ [])
    (hs : ∀ c ∈ sch, reSpace c = false) (hsne : sch ≠ []) :
    respTail k (st ++ ' ' :: sch) = some (k, st, sch, []) := by
  unfold respTail
  rw [optStatus_digits hd hne hs hsne]
  have h2 : plusP reNonSpace sch = some (sch, []) :=
    plusP_all (fun c hc => reNonSpace_of_not_space (hs c hc)) hsne
  simp only [h2]
  rfl

theorem parseLine_okArm (r : List Char) (a : Annot)
    (h : parseResponsePattern ('!' :: 'o' :: 'k' :: r) = some a) :
    parseLine ('!' :: 'o' :: 'k' :: r) = some a := by
  unfold parseLine
  rw [show parseSimplePatterns ('!' :: 'o' :: 'k' :: r) = none from rfl,
      show parseRoutePattern ('!' :: 'o' :: 'k' :: r) = none from rfl,
      show parseParamPattern ('!' :: 'o' :: 'k' :: r) = none from rfl,
      show parseBodyPattern ('!' :: 'o' :: 'k' :: r) = none from rfl, h]

theorem parseLine_errorArm (r : List Char) (a : Annot)
    (h : parseResponsePattern ('!' :: 'e' :: 'r' :: 'r' :: 'o' :: 'r' :: r) = some a) :
    parseLine ('!' :: 'e' :: 'r' :: 'r' :: 'o' :: 'r' :: r) = some a := by
  unfold parseLine
  rw [show parseSimplePatterns ('!' :: 'e' :: 'r' :: 'r' :: 'o' :: 'r' :: r) = none from rfl,
      show parseRoutePattern ('!' :: 'e' :: 'r' :: 'r' :: 'o' :: 'r' :: r) = none from rfl,
      show parseParamPattern ('!' :: 'e' :: 'r' :: 'r' :: 'o' :: 'r' :: r) = none from rfl,
      show parseBodyPattern ('!' :: 'e' :: 'r' :: 'r' :: 'o' :: 'r' :: r) = none from rfl, h]

theorem parseResp_ok_omitted {sch : List Char}
    (hs : ∀ c ∈ sch, reSpace c = false) (hsne : sch ≠ []) :
    parseLine ('!' :: 'o' :: 'k' :: ' ' :: sch) =
      some { type := .ok, rawLine := '!' :: 'o' :: 'k' :: ' ' :: sch,
             args := [(kStatus, v200), (kSchema, sch), (kDescription, [])],
             tags := [] } := by
  apply parseLine_okArm
  have hb : matchResponse ('!' :: 'o' :: 'k' :: ' ' :: sch) =
      respTail litOk (sch.dropWhile reSpace) := rfl
  unfold parseResponsePattern
  rw [hb, dropWhile_self hs, respTail_omitted hs hsne]
  rfl

theorem parseResp_error_omitted {sch : List Char}
    (hs : ∀ c ∈ sch, reSpace c = false) (hsne : sch ≠ []) :
    parseLine ('!' :: 'e' :: 'r' :: 'r' :: 'o' :: 'r' :: ' ' :: sch) =
      some { type := .error,
             rawLine := '!' :: 'e' :: 'r' :: 'r' :: 'o' :: 'r' :: ' ' :: sch,
             args := [(kStatus, v500), (kSchema, sch), (kDescription, [])],
             tags := [] } := by
  apply parseLine_errorArm
  have hb : matchResponse ('!' :: 'e' :: 'r' :: 'r' :: 'o' :: 'r' :: ' ' :: sch) =
      respTail litError (sch.dropWhile reSpace) := rfl
  unfold parseResponsePattern
  rw [hb, dropWhile_self hs, respTail_omitted hs hsne]
  rfl

theorem parseResp_ok_explicit {st sch : List Char}
    (hd : ∀ c ∈ st, reDigit c = true) (hne : st ≠ [])
    (hs : ∀ c ∈ sch, reSpace c = false) (hsne : sch ≠ []) :
    parseLine ('!' :: 'o' :: 'k' :: ' ' :: (st ++ ' ' :: sch)) =
      some { type := .ok,
             rawLine := '!' :: 'o' :: 'k' :: ' ' :: (st ++ ' ' :: sch),
             args := [(kStatus, st), (kSchema, sch), (kDescription, [])],
             tags := [] } := by
  apply parseLine_okArm
  obtain ⟨c, st', rfl⟩ : ∃ c st', st = c :: st' := by
    cases st with
    | nil => exact absurd rfl hne
    | cons c st' => exact ⟨c, st', rfl⟩
  have hb : matchResponse ('!' :: 'o' :: 'k' :: ' ' :: ((c :: st') ++ ' ' :: sch)) =
      respTail litOk (((c :: st') ++ ' ' :: sch).dropWhile reSpace) := rfl
  have hdw : ((c :: st') ++ ' ' :: sch).dropWhile reSpace =
      (c :: st') ++ ' ' :: sch := by
    rw [List.cons_append,
        List.dropWhile_cons_of_neg (by simp [reDigit_not_space (hd c (by simp))])]
  unfold parseResponsePattern
  rw [hb, hdw, respTail_explicit hd hne hs hsne]
  have hcond1 : ¬(litOk = litOk ∧ c :: st' = []) := fun hcon =>
    List.noConfusion hcon.2
  have hcond2 : ¬(litOk = litError ∧ c :: st' = []) := fun hcon =>
    List.noConfusion hcon.2
  have hcond3 : ¬litOk = litError := by decide
  simp only [hcond1, hcond2, hcond3, if_false, if_neg, eq_self_iff_true]
  rfl

theorem parseResp_error_explicit {st sch : List Char}
    (hd : ∀ c ∈ st, reDigit c = true) (hne : st ≠ [])
    (hs : ∀ c ∈ sch, reSpace c = false) (hsne : sch ≠ []) :
    parseLine ('!' :: 'e' :: 'r' :: 'r' :: 'o' :: 'r' :: ' ' :: (st ++ ' ' :: sch)) =
      some { type := .error,
             rawLine := '!' :: 'e' :: 'r' :: 'r' :: 'o' :: 'r' :: ' ' :: (st ++ ' ' :: sch),
             args := [(kStatus, st), (kSchema, sch), (kDescription, [])],
             tags := [] } := by
  apply parseLine_errorArm
  obtain ⟨c, st', rfl⟩ : ∃ c st', st = c :: st' := by
    cases st with
    | nil => exact absurd rfl hne
    | cons c st' => exact ⟨c, st', rfl⟩
  have hb : matchResponse
      ('!' :: 'e' :: 'r' :: 'r' :: 'o' :: 'r' :: ' ' :: ((c :: st') ++ ' ' :: sch)) =
      respTail litError (((c :: st') ++ ' ' :: sch).dropWhile reSpace) := rfl
  have hdw : ((c :: st') ++ ' ' :: sch).dropWhile reSpace =
      (c :: st') ++ ' ' :: sch := by
    rw [List.cons_append,
        List.dropWhile_cons_of_neg (by simp [reDigit_not_space (hd c (by simp))])]
  unfold parseResponsePattern
  rw [hb, hdw, respTail_explicit hd hne hs hsne]
  have hcond1 : ¬(litError = litOk ∧ c :: st' = []) := fun hcon =>
    absurd hcon.1 (by decide)
  have hcond2 : ¬(litError = litError ∧ c :: st' = []) := fun hcon =>
    List.noConfusion hcon.2
  simp only [hcond1, hcond2, if_false, if_neg, eq_self_iff_true]
  rfl

/-! ## C2 — status defaults of `!ok` / `!error` -/

/-- C2: a response directive with an explicit numeric status stores that
status verbatim, and one that omits the status stores exactly `"200"` for
`!ok` and exactly `"500"` for `!error` (for any space-free schema token). -/
theorem response_status_defaults (st sch : List Char)
    (hd : ∀ c ∈ st, reDigit c = true) (hne : st ≠ [])
    (hs : ∀ c ∈ sch, reSpace c = false) (hsne : sch ≠ []) :
    parseLine ('!' :: 'o' :: 'k' :: ' ' :: (st ++ ' ' :: sch)) =
      some { type := .ok,
             rawLine := '!' :: 'o' :: 'k' :: ' ' :: (st ++ ' ' :: sch),
             args := [(kStatus, st), (kSchema, sch), (kDescription, [])],
             tags := [] } ∧
    parseLine ('!' :: 'e' :: 'r' :: 'r' :: 'o' :: 'r' :: ' ' :: (st ++ ' ' :: sch)) =
      some { type := .error,
             rawLine := '!' :: 'e' :: 'r' :: 'r' :: 'o' :: 'r' :: ' ' :: (st ++ ' ' :: sch),
             args := [(kStatus, st), (kSchema, sch), (kDescription, [])],
             tags := [] } ∧
    parseLine ('!' :: 'o' :: 'k' :: ' ' :: sch) =
      some { type := .ok, rawLine := '!' :: 'o' :: 'k' :: ' ' :: sch,
             args := [(kStatus, v200), (kSchema, sch), (kDescription, [])],
             tags := [] } ∧
    parseLine ('!' :: 'e' :: 'r' :: 'r' :: 'o' :: 'r' :: ' ' :: sch) =
      some { type := .error,
             rawLine := '!' :: 'e' :: 'r' :: 'r' :: 'o' :: 'r' :: ' ' :: sch,
             args := [(kStatus, v500), (kSchema, sch), (kDescription, [])],
             tags := [] } :=
  ⟨parseResp_ok_explicit hd hne hs hsne, parseResp_error_explicit hd hne hs hsne,
   parseResp_ok_omitted hs hsne, parseResp_error_omitted hs hsne⟩

theorem response_status_defaults_witness :
    parseLine (("!ok 201 User").toList) =
      some { type := .ok, rawLine := ("!ok 201 User").toList,
             args := [(kStatus, ['2', '0', '1']),
                      (kSchema, ['U', 's', 'e', 'r']), (kDescription, [])],
             tags := [] } ∧
    parseLine (("!error 201 User").toList) =
      some { type := .error, rawLine := ("!error 201 User").toList,
             args := [(kStatus, ['2', '0', '1']),
                      (kSchema, ['U', 's', 'e', 'r']), (kDescription, [])],
             tags := [] } ∧
    parseLine (("!ok User").toList) =
      some { type := .ok, rawLine := ("!ok User").toList,
             args := [(kStatus, v200),
                      (kSchema, ['U', 's', 'e', 'r']), (kDescription, [])],
             tags := [] } ∧
    parseLine (("!error User").toList) =
      some { type := .error, rawLine := ("!error User").toList,
             args := [(kStatus, v500),
                      (kSchema, ['U', 's', 'e', 'r']), (kDescription, [])],
             tags := [] } :=
  response_status_defaults ['2', '0', '1'] ['U', 's', 'e', 'r']
    (by decide) (by decide) (by decide) (by decide)

/-! ## C9 — a lone all-digits token is the schema, not the status -/

/-- C9: a response directive whose only token after the keyword is all
digits (e.g. `!error 404`) captures that digit string as the schema
attribute, while the status attribute receives the default (`"500"` for
`!error`, `"200"` for `!ok`). -/
theorem response_digit_only_token (d : List Char)
    (hd : ∀ c ∈ d, reDigit c = true) (hne : d ≠ []) :
    parseLine ('!' :: 'e' :: 'r' :: 'r' :: 'o' :: 'r' :: ' ' :: d) =
      some { type := .error,
             rawLine := '!' :: 'e' :: 'r' :: 'r' :: 'o' :: 'r' :: ' ' :: d,
             args := [(kStatus, v500), (kSchema, d), (kDescription, [])],
             tags := [] } ∧
    parseLine ('!' :: 'o' :: 'k' :: ' ' :: d) =
      some { type := .ok, rawLine := '!' :: 'o' :: 'k' :: ' ' :: d,
             args := [(kStatus, v200), (kSchema, d), (kDescription, [])],
             tags := [] } :=
  have hs : ∀ c ∈ d, reSpace c = false := fun c hc => reDigit_not_space (hd c hc)
  ⟨parseResp_error_omitted hs hne, parseResp_ok_omitted hs hne⟩

theorem response_digit_only_token_witness :
    parseLine (("!error 404").toList) =
      some { type := .error, rawLine := ("!error 404").toList,
             args := [(kStatus, v500), (kSchema, ['4', '0', '4']),
                      (kDescription, [])],
             tags := [] } ∧
    parseLine (("!ok 404").toList) =
      some { type := .ok, rawLine := ("!ok 404").toList,
             args := [(kStatus, v200), (kSchema, ['4', '0', '4']),
                      (kDescription, [])],
             tags := [] } :=
  response_digit_only_token ['4', '0', '4'] (by decide) (by decide)

/-! ## Symbolic evaluation of the parameter grammar (C10, C4) -/

theorem parseLine_cookieArm (r : List Char) (a : Annot)
    (h : parseParamPattern ('!' :: 'c' :: 'o' :: 'o' :: 'k' :: 'i' :: 'e' :: r) = some a) :
    parseLine ('!' :: 'c' :: 'o' :: 'o' :: 'k' :: 'i' :: 'e' :: r) = some a := by
  unfold parseLine
  rw [show parseSimplePatterns ('!' :: 'c' :: 'o' :: 'o' :: 'k' :: 'i' :: 'e' :: r) = none from rfl,
      show parseRoutePattern ('!' :: 'c' :: 'o' :: 'o' :: 'k' :: 'i' :: 'e' :: r) = none from rfl, h]

theorem parseLine_queryArm (r : List Char) (a : Annot)
    (h : parseParamPattern ('!' :: 'q' :: 'u' :: 'e' :: 'r' :: 'y' :: r) = some a) :
    parseLine ('!' :: 'q' :: 'u' :: 'e' :: 'r' :: 'y' :: r) = some a := by
  unfold parseLine
  rw [show parseSimplePatterns ('!' :: 'q' :: 'u' :: 'e' :: 'r' :: 'y' :: r) = none from rfl,
      show parseRoutePattern ('!' :: 'q' :: 'u' :: 'e' :: 'r' :: 'y' :: r) = none from rfl, h]

theorem parseLine_fieldArm (r : List Char) (a : Annot)
    (h : parseFieldPattern ('!' :: 'f' :: 'i' :: 'e' :: 'l' :: 'd' :: r) = some a) :
    parseLine ('!' :: 'f' :: 'i' :: 'e' :: 'l' :: 'd' :: r) = some a := by
  unfold parseLine
  rw [show parseSimplePatterns ('!' :: 'f' :: 'i' :: 'e' :: 'l' :: 'd' :: r) = none from rfl,
      show parseRoutePattern ('!' :: 'f' :: 'i' :: 'e' :: 'l' :: 'd' :: r) = none from rfl,
      show parseParamPattern ('!' :: 'f' :: 'i' :: 'e' :: 'l' :: 'd' :: r) = none from rfl,
      show parseBodyPattern ('!' :: 'f' :: 'i' :: 'e' :: 'l' :: 'd' :: r) = none from rfl,
      show parseResponsePattern ('!' :: 'f' :: 'i' :: 'e' :: 'l' :: 'd' :: r) = none from rfl,
      show parseSecurePattern ('!' :: 'f' :: 'i' :: 'e' :: 'l' :: 'd' :: r) = none from rfl,
      show parseWebhookPattern ('!' :: 'f' :: 'i' :: 'e' :: 'l' :: 'd' :: r) = none from rfl,
      show parseModelPattern ('!' :: 'f' :: 'i' :: 'e' :: 'l' :: 'd' :: r) = none from rfl, h]

/-- The parameter tail on a well-formed `name:type` remainder. -/
theorem paramTail_words (loc n t : List Char)
    (hn : ∀ c ∈ n, reWordHyphen c = true) (hne : n ≠ [])
    (ht : ∀ c ∈ t, reWord c = true) (htne : t ≠ []) :
    paramTail loc (n ++ ':' :: t) = some (loc, n, t, []) := by
  have h1 : plusP reWordHyphen (n ++ ':' :: t) = some (n, ':' :: t) := by
    cases n with
    | nil => exact absurd rfl hne
    | cons c n' =>
      have hall : ∀ x ∈ n', reWordHyphen x = true :=
        fun x hx => hn x (List.mem_cons_of_mem _ hx)
      rw [List.cons_append]
      simp only [plusP, hn c (by simp), if_true]
      rw [takeWhile_append_all _ hall, dropWhile_append_all _ hall,
          List.takeWhile_cons_of_neg (by decide),
          List.dropWhile_cons_of_neg (by decide)]
      simp
  have h2 : plusP reWord t = some (t, []) := plusP_all ht htne
  unfold paramTail
  simp [h1, h2, dropLit, starP, quoted]

/-- C10: the parameter grammar also accepts the undocumented `!cookie`
location: the line parses, the `in` attribute is `"cookie"`, but the
annotation kind is the query kind (`AnnotationQuery`), since only `path`
and `header` override the default. -/
theorem cookie_param_is_query_kind (n t : List Char)
    (hn : ∀ c ∈ n, reWordHyphen c = true) (hne : n ≠ [])
    (ht : ∀ c ∈ t, reWord c = true) (htne : t ≠ []) :
    ∃ a, parseLine
        ('!' :: 'c' :: 'o' :: 'o' :: 'k' :: 'i' :: 'e' :: ' ' :: (n ++ ':' :: t)) =
        some a ∧
      a.type = AnnotationType.query ∧
      a.arg kIn = ['c', 'o', 'o', 'k', 'i', 'e'] ∧
      a.arg kName = n ∧ a.arg kType = t := by
  have hb : matchParam
      ('!' :: 'c' :: 'o' :: 'o' :: 'k' :: 'i' :: 'e' :: ' ' :: (n ++ ':' :: t)) =
      paramTail ['c', 'o', 'o', 'k', 'i', 'e'] ((n ++ ':' :: t).dropWhile reSpace) := rfl
  have hself : (n ++ ':' :: t).dropWhile reSpace = n ++ ':' :: t := by
    cases n with
    | nil => exact absurd rfl hne
    | cons c n' =>
      rw [List.cons_append, List.dropWhile_cons_of_neg
        (by simp [reWordHyphen_not_space (hn c (by simp))])]
  have hm : matchParam
      ('!' :: 'c' :: 'o' :: 'o' :: 'k' :: 'i' :: 'e' :: ' ' :: (n ++ ':' :: t)) =
      some (['c', 'o', 'o', 'k', 'i', 'e'], n, t, []) := by
    rw [hb, hself, paramTail_words _ _ _ hn hne ht htne]
  refine ⟨{ type := AnnotationType.query,
            rawLine := '!' :: 'c' :: 'o' :: 'o' :: 'k' :: 'i' :: 'e' :: ' ' :: (n ++ ':' :: t),
            args := [(kIn, ['c', 'o', 'o', 'k', 'i', 'e']), (kName, n), (kType, t),
                     (kDescription, [])] ++
              (if containsSub sRequired
                  ('!' :: 'c' :: 'o' :: 'o' :: 'k' :: 'i' :: 'e' :: ' ' :: (n ++ ':' :: t))
               then [(kRequired, vTrue)] else []) ++
              (match scanKeyToken kwDefaultEq
                  ('!' :: 'c' :: 'o' :: 'o' :: 'k' :: 'i' :: 'e' :: ' ' :: (n ++ ':' :: t)) with
               | some v => [(kDefault, trimQuotes v)]
               | none => []),
            tags := [] }, parseLine_cookieArm _ _ ?_, rfl, ?_, ?_, ?_⟩
  · unfold parseParamPattern
    rw [hm]
    rfl
  · rfl
  · rfl
  · rfl

theorem cookie_param_is_query_kind_witness :
    ∃ a, parseLine (("!cookie s:int").toList) = some a ∧
      a.type = AnnotationType.query ∧
      a.arg kIn = ['c', 'o', 'o', 'k', 'i', 'e'] ∧
      a.arg kName = ['s'] ∧ a.arg kType = ['i', 'n', 't'] :=
  cookie_param_is_query_kind ['s'] ['i', 'n', 't']
    (by decide) (by decide) (by decide) (by decide)

/-! ## C4 — `default=` / `example=` value scanning (corrected) -/

/-- C4 counterexample: on `!query q:string default="hello world"` the stored
default is `"hello"` — the `default=(\S+)` scan stops at the first space
inside the quoted value, then strips the leading quote — not
`"hello world"` as the claim requires for the quoted form with spaces. -/
theorem default_quoted_spaces_cex :
    (parseLine (("!query q:string default=\x22hello world\x22").toList)).map
        GetParamDefault = some ['h', 'e', 'l', 'l', 'o'] ∧
    (['h', 'e', 'l', 'l', 'o'] : List Char) ≠
      ['h', 'e', 'l', 'l', 'o', ' ', 'w', 'o', 'r', 'l', 'd'] := by
  constructor
  · decide
  · decide

theorem notQuote_of_noQuoteApos {c : Char} (h : isQuoteApos c = false) :
    notQuote c = true := by
  simp only [isQuoteApos, Bool.or_eq_false_iff] at h
  simp [notQuote, h.1]

theorem trimQuotes_self {x : List Char}
    (h : ∀ c ∈ x, isQuoteApos c = false) : trimQuotes x = x := by
  unfold trimQuotes
  rw [dropWhile_self h,
      dropWhile_self (fun c hc => h c (List.mem_reverse.mp hc)),
      List.reverse_reverse]

theorem trimQuotes_quoted {y : List Char}
    (h : ∀ c ∈ y, isQuoteApos c = false) :
    trimQuotes ('"' :: (y ++ ['"'])) = y := by
  unfold trimQuotes
  rw [List.dropWhile_cons_of_pos (by decide)]
  cases y with
  | nil => decide
  | cons c y' =>
    have hc : ¬isQuoteApos c = true := by simp [h c (by simp)]
    rw [List.cons_append, List.dropWhile_cons_of_neg hc]
    rw [show c :: (y' ++ ['"']) = (c :: y') ++ ['"'] from rfl]
    rw [List.reverse_append]
    simp only [List.reverse_cons, List.reverse_nil, List.nil_append,
      List.singleton_append]
    rw [List.dropWhile_cons_of_pos (by decide)]
    rw [dropWhile_self (fun d hd => h d ?_)]
    · simp
    · rcases List.mem_append.mp hd with hmem | hmem
      · exact List.mem_cons_of_mem _ (List.mem_reverse.mp hmem)
      · rcases List.mem_singleton.mp hmem with rfl
        exact List.mem_cons_self _ _

theorem argLookup_after_opt (k : List Char)
    (base : List (List Char × List Char))
    (hb : ∀ kv ∈ base, k ≠ kv.1) (b : Bool) (other v z : List Char)
    (hk : k ≠ other) :
    argLookup k (base ++ (if b = true then [(other, v)] else []) ++ [(k, z)]) = z := by
  rw [List.append_assoc, argLookup_skip k base _ hb]
  cases b
  · simp only [Bool.false_eq_true, if_false, List.nil_append,
      argLookup_cons_self]
  · simp only [if_true, List.cons_append, List.nil_append,
      argLookup_cons_ne hk, argLookup_cons_self]

/-- C4 amended: the stored `default` equals the value with surrounding
quotes stripped for the bare form `default=X` and for a quoted form whose
value has no spaces; on `!field` lines the `example=("..."|\S+)` scan does
support quoted values with spaces, which are stored quote-stripped.  (A
quoted `default` value containing spaces is instead cut at its first space
— the counterexample above.) -/
theorem default_example_stored (x y : List Char)
    (hx1 : ∀ c ∈ x, reSpace c = false)
    (hx2 : ∀ c ∈ x, isQuoteApos c = false) (hxne : x ≠ [])
    (hy : ∀ c ∈ y, isQuoteApos c = false) :
    (∃ a, parseLine
        ('!' :: 'q' :: 'u' :: 'e' :: 'r' :: 'y' :: ' ' :: 'q' :: ':' :: 's' :: 't' :: 'r' :: 'i' :: 'n' :: 'g' :: ' ' :: 'd' :: 'e' :: 'f' :: 'a' :: 'u' :: 'l' :: 't' :: '=' :: x) =
        some a ∧ GetParamDefault a = x) ∧
    (∃ a, parseLine
        ('!' :: 'q' :: 'u' :: 'e' :: 'r' :: 'y' :: ' ' :: 'q' :: ':' :: 's' :: 't' :: 'r' :: 'i' :: 'n' :: 'g' :: ' ' :: 'd' :: 'e' :: 'f' :: 'a' :: 'u' :: 'l' :: 't' :: '=' :: '"' :: (x ++ ['"'])) =
        some a ∧ GetParamDefault a = x) ∧
    (∃ a, parseLine
        ('!' :: 'f' :: 'i' :: 'e' :: 'l' :: 'd' :: ' ' :: 'f' :: ':' :: 's' :: 't' :: 'r' :: 'i' :: 'n' :: 'g' :: ' ' :: 'e' :: 'x' :: 'a' :: 'm' :: 'p' :: 'l' :: 'e' :: '=' :: '"' :: (y ++ ['"'])) =
        some a ∧ GetFieldExample a = y) := by
  have hbase4 : ∀ kv ∈ [(kIn, ['q', 'u', 'e', 'r', 'y']), (kName, ['q']),
      (kType, ['s', 't', 'r', 'i', 'n', 'g']), (kDescription, ([] : List Char))],
      kDefault ≠ kv.1 := by
    intro kv hkv
    rcases List.mem_cons.mp hkv with rfl | hkv
    · exact (by decide : kDefault ≠ kIn)
    rcases List.mem_cons.mp hkv with rfl | hkv
    · exact (by decide : kDefault ≠ kName)
    rcases List.mem_cons.mp hkv with rfl | hkv
    · exact (by decide : kDefault ≠ kType)
    rcases List.mem_cons.mp hkv with rfl | hkv
    · exact (by decide : kDefault ≠ kDescription)
    · simp at hkv
  refine ⟨?_, ?_, ?_⟩
  · -- bare default=X
    have hscan : scanKeyToken kwDefaultEq
        ('!' :: 'q' :: 'u' :: 'e' :: 'r' :: 'y' :: ' ' :: 'q' :: ':' :: 's' :: 't' :: 'r' :: 'i' :: 'n' :: 'g' :: ' ' :: 'd' :: 'e' :: 'f' :: 'a' :: 'u' :: 'l' :: 't' :: '=' :: x) =
        some x := by
      have hb : scanKeyToken kwDefaultEq
          ('!' :: 'q' :: 'u' :: 'e' :: 'r' :: 'y' :: ' ' :: 'q' :: ':' :: 's' :: 't' :: 'r' :: 'i' :: 'n' :: 'g' :: ' ' :: 'd' :: 'e' :: 'f' :: 'a' :: 'u' :: 'l' :: 't' :: '=' :: x) =
          (match plusP reNonSpace x with
           | some (v, _) => some v
           | none => scanKeyToken kwDefaultEq
               ('e' :: 'f' :: 'a' :: 'u' :: 'l' :: 't' :: '=' :: x)) := rfl
      rw [hb, plusP_all
        (fun c hc => reNonSpace_of_not_space (hx1 c hc)) hxne]
    have hm : matchParam
        ('!' :: 'q' :: 'u' :: 'e' :: 'r' :: 'y' :: ' ' :: 'q' :: ':' :: 's' :: 't' :: 'r' :: 'i' :: 'n' :: 'g' :: ' ' :: 'd' :: 'e' :: 'f' :: 'a' :: 'u' :: 'l' :: 't' :: '=' :: x) =
        some (['q', 'u', 'e', 'r', 'y'], ['q'],
          ['s', 't', 'r', 'i', 'n', 'g'], []) := rfl
    refine ⟨{ type := AnnotationType.query,
              rawLine := '!' :: 'q' :: 'u' :: 'e' :: 'r' :: 'y' :: ' ' :: 'q' :: ':' :: 's' :: 't' :: 'r' :: 'i' :: 'n' :: 'g' :: ' ' :: 'd' :: 'e' :: 'f' :: 'a' :: 'u' :: 'l' :: 't' :: '=' :: x,
              args := [(kIn, ['q', 'u', 'e', 'r', 'y']), (kName, ['q']),
                       (kType, ['s', 't', 'r', 'i', 'n', 'g']), (kDescription, [])] ++
                (if containsSub sRequired
                    ('!' :: 'q' :: 'u' :: 'e' :: 'r' :: 'y' :: ' ' :: 'q' :: ':' :: 's' :: 't' :: 'r' :: 'i' :: 'n' :: 'g' :: ' ' :: 'd' :: 'e' :: 'f' :: 'a' :: 'u' :: 'l' :: 't' :: '=' :: x)
                 then [(kRequired, vTrue)] else []) ++
                [(kDefault, trimQuotes x)],
              tags := [] }, parseLine_queryArm _ _ ?_, ?_⟩
    · unfold parseParamPattern
      rw [hm, hscan]
      rfl
    · refine Eq.trans ?_ (trimQuotes_self hx2)
      exact argLookup_after_opt kDefault _ hbase4 _ kRequired vTrue
        (trimQuotes x) (by decide)
  · -- quoted default="X" without spaces
    have hnsq : ∀ c ∈ '"' :: (x ++ ['"']), reNonSpace c = true := by
      intro c hc
      rcases List.mem_cons.mp hc with rfl | hc
      · decide
      rcases List.mem_append.mp hc with hc | hc
      · exact reNonSpace_of_not_space (hx1 c hc)
      · rcases List.mem_singleton.mp hc with rfl
        decide
    have hscan : scanKeyToken kwDefaultEq
        ('!' :: 'q' :: 'u' :: 'e' :: 'r' :: 'y' :: ' ' :: 'q' :: ':' :: 's' :: 't' :: 'r' :: 'i' :: 'n' :: 'g' :: ' ' :: 'd' :: 'e' :: 'f' :: 'a' :: 'u' :: 'l' :: 't' :: '=' :: '"' :: (x ++ ['"'])) =
        some ('"' :: (x ++ ['"'])) := by
      have hb : scanKeyToken kwDefaultEq
          ('!' :: 'q' :: 'u' :: 'e' :: 'r' :: 'y' :: ' ' :: 'q' :: ':' :: 's' :: 't' :: 'r' :: 'i' :: 'n' :: 'g' :: ' ' :: 'd' :: 'e' :: 'f' :: 'a' :: 'u' :: 'l' :: 't' :: '=' :: '"' :: (x ++ ['"'])) =
          (match plusP reNonSpace ('"' :: (x ++ ['"'])) with
           | some (v, _) => some v
           | none => scanKeyToken kwDefaultEq
               ('e' :: 'f' :: 'a' :: 'u' :: 'l' :: 't' :: '=' :: '"' :: (x ++ ['"']))) := rfl
      rw [hb, plusP_all hnsq (by simp)]
    have hm : matchParam
        ('!' :: 'q' :: 'u' :: 'e' :: 'r' :: 'y' :: ' ' :: 'q' :: ':' :: 's' :: 't' :: 'r' :: 'i' :: 'n' :: 'g' :: ' ' :: 'd' :: 'e' :: 'f' :: 'a' :: 'u' :: 'l' :: 't' :: '=' :: '"' :: (x ++ ['"'])) =
        some (['q', 'u', 'e', 'r', 'y'], ['q'],
          ['s', 't', 'r', 'i', 'n', 'g'], []) := rfl
    refine ⟨{ type := AnnotationType.query,
              rawLine := '!' :: 'q' :: 'u' :: 'e' :: 'r' :: 'y' :: ' ' :: 'q' :: ':' :: 's' :: 't' :: 'r' :: 'i' :: 'n' :: 'g' :: ' ' :: 'd' :: 'e' :: 'f' :: 'a' :: 'u' :: 'l' :: 't' :: '=' :: '"' :: (x ++ ['"']),
              args := [(kIn, ['q', 'u', 'e', 'r', 'y']), (kName, ['q']),
                       (kType, ['s', 't', 'r', 'i', 'n', 'g']), (kDescription, [])] ++
                (if containsSub sRequired
                    ('!' :: 'q' :: 'u' :: 'e' :: 'r' :: 'y' :: ' ' :: 'q' :: ':' :: 's' :: 't' :: 'r' :: 'i' :: 'n' :: 'g' :: ' ' :: 'd' :: 'e' :: 'f' :: 'a' :: 'u' :: 'l' :: 't' :: '=' :: '"' :: (x ++ ['"']))
                 then [(kRequired, vTrue)] else []) ++
                [(kDefault, trimQuotes ('"' :: (x ++ ['"'])))],
              tags := [] }, parseLine_queryArm _ _ ?_, ?_⟩
    · unfold parseParamPattern
      rw [hm, hscan]
      rfl
    · refine Eq.trans ?_ (trimQuotes_quoted hx2)
      exact argLookup_after_opt kDefault _ hbase4 _ kRequired vTrue
        (trimQuotes ('"' :: (x ++ ['"']))) (by decide)
  · -- quoted example="Y" on a field line, spaces allowed in Y
    have hyq : ∀ c ∈ y, notQuote c = true :=
      fun c hc => notQuote_of_noQuoteApos (hy c hc)
    have hquoted : quotedRaw ('"' :: (y ++ ['"'])) = some ('"' :: (y ++ ['"'])) := by
      have hdw : (y ++ ['"']).dropWhile notQuote = ['"'] := by
        rw [dropWhile_append_all _ hyq]
        rfl
      have htw : (y ++ ['"']).takeWhile notQuote = y := by
        rw [takeWhile_append_all _ hyq]
        simp [notQuote]
      show (match (y ++ ['"']).dropWhile notQuote with
            | '"' :: _ => some ('"' :: ((y ++ ['"']).takeWhile notQuote ++ ['"']))
            | _ => none) = some ('"' :: (y ++ ['"']))
      rw [hdw, htw]
      rfl
    have hscan : scanExample
        ('!' :: 'f' :: 'i' :: 'e' :: 'l' :: 'd' :: ' ' :: 'f' :: ':' :: 's' :: 't' :: 'r' :: 'i' :: 'n' :: 'g' :: ' ' :: 'e' :: 'x' :: 'a' :: 'm' :: 'p' :: 'l' :: 'e' :: '=' :: '"' :: (y ++ ['"'])) =
        some ('"' :: (y ++ ['"'])) := by
      have hb : scanExample
          ('!' :: 'f' :: 'i' :: 'e' :: 'l' :: 'd' :: ' ' :: 'f' :: ':' :: 's' :: 't' :: 'r' :: 'i' :: 'n' :: 'g' :: ' ' :: 'e' :: 'x' :: 'a' :: 'm' :: 'p' :: 'l' :: 'e' :: '=' :: '"' :: (y ++ ['"'])) =
          (match quotedRaw ('"' :: (y ++ ['"'])) with
           | some v => some v
           | none =>
             match plusP reNonSpace ('"' :: (y ++ ['"'])) with
             | some (v, _) => some v
             | none => scanExample
                 ('x' :: 'a' :: 'm' :: 'p' :: 'l' :: 'e' :: '=' :: '"' :: (y ++ ['"']))) := rfl
      rw [hb, hquoted]
    have hm : matchField
        ('!' :: 'f' :: 'i' :: 'e' :: 'l' :: 'd' :: ' ' :: 'f' :: ':' :: 's' :: 't' :: 'r' :: 'i' :: 'n' :: 'g' :: ' ' :: 'e' :: 'x' :: 'a' :: 'm' :: 'p' :: 'l' :: 'e' :: '=' :: '"' :: (y ++ ['"'])) =
        some (['f'], ['s', 't', 'r', 'i', 'n', 'g'], []) := rfl
    refine ⟨{ type := AnnotationType.field,
              rawLine := '!' :: 'f' :: 'i' :: 'e' :: 'l' :: 'd' :: ' ' :: 'f' :: ':' :: 's' :: 't' :: 'r' :: 'i' :: 'n' :: 'g' :: ' ' :: 'e' :: 'x' :: 'a' :: 'm' :: 'p' :: 'l' :: 'e' :: '=' :: '"' :: (y ++ ['"']),
              args := [(kName, ['f']), (kType, ['s', 't', 'r', 'i', 'n', 'g']),
                       (kDescription, [])] ++
                (if containsSub sRequired
                    ('!' :: 'f' :: 'i' :: 'e' :: 'l' :: 'd' :: ' ' :: 'f' :: ':' :: 's' :: 't' :: 'r' :: 'i' :: 'n' :: 'g' :: ' ' :: 'e' :: 'x' :: 'a' :: 'm' :: 'p' :: 'l' :: 'e' :: '=' :: '"' :: (y ++ ['"']))
                 then [(kRequired, vTrue)] else []) ++
                [(kExample, trimQuotes ('"' :: (y ++ ['"'])))],
              tags := [] }, parseLine_fieldArm _ _ ?_, ?_⟩
    · unfold parseFieldPattern
      rw [hm, hscan]
      try rfl
    · have hbase3 : ∀ kv ∈ [(kName, ['f']),
          (kType, ['s', 't', 'r', 'i', 'n', 'g']),
          (kDescription, ([] : List Char))], kExample ≠ kv.1 := by
        intro kv hkv
        rcases List.mem_cons.mp hkv with rfl | hkv
        · exact (by decide : kExample ≠ kName)
        rcases List.mem_cons.mp hkv with rfl | hkv
        · exact (by decide : kExample ≠ kType)
        rcases List.mem_cons.mp hkv with rfl | hkv
        · exact (by decide : kExample ≠ kDescription)
        · simp at hkv
      refine Eq.trans ?_ (trimQuotes_quoted hy)
      exact argLookup_after_opt kExample _ hbase3 _ kRequired vTrue
        (trimQuotes ('"' :: (y ++ ['"']))) (by decide)

theorem default_example_stored_witness :
    (∃ a, parseLine (("!query q:string default=10").toList) = some a ∧
      GetParamDefault a = ['1', '0']) ∧
    (∃ a, parseLine (("!query q:string default=\x2210\x22").toList) = some a ∧
      GetParamDefault a = ['1', '0']) ∧
    (∃ a, parseLine (("!field f:string example=\x22a b\x22").toList) = some a ∧
      GetFieldExample a = ['a', ' ', 'b']) :=
  default_example_stored ['1', '0'] ['a', ' ', 'b']
    (by decide) (by decide) (by decide) (by decide)

end YaSwag
